import Mathlib

/-!
# mikrotik-cf-ddns: the update proxy and the configuration loader

A shallow embedding of `main.go` (`updateHandler.ServeHTTP`,
`updateHandler.updateRecord`, `parseConfig`) together with the Go standard
library routines these functions call (`strings.TrimSpace`,
`strings.IndexByte`, `template.JSEscapeString`, `url.PathEscape`,
`http.Error`, `http.Header`).

Conventions.

* A Go `string` is an immutable byte sequence: `GoString` is a list of
  naturals, each byte a natural below 256.  Runes are naturals as well.
* `http.ResponseWriter` is an interface; the handler is observed through
  the calls it makes on it: the header map, the status code handed to
  `WriteHeader` (with the header map as it stood at that moment) and the
  bytes handed to `Write`.  `WriteHeader` panics on a status code outside
  100..999, as every writer of net/http does; the panic ends the handler
  and is recorded in the writer.
* The outside world is a parameter (`Env`): the Unicode table behind
  `unicode.IsPrint`, the verdict of `url.Parse` inside
  `http.NewRequestWithContext`, and the upstream server behind
  `http.DefaultClient.Do`.
* Log lines are recorded without the timestamp that package `log` puts in
  front of them.  Request contexts (cancellation) and the deferred
  `Body.Close()` calls are not represented.
* Shifts and masks of the library code are written with division and
  remainder: `c>>4` is `c / 16`, `c&0x0f` is `c % 16`.
-/

namespace MikrotikCfDdns

/-! ## Go strings -/

/-- Go `string`: a sequence of bytes. -/
abbrev GoString := List Nat

/-- Bytes of a string literal of the source (all of them are ASCII). -/
def lit (s : String) : GoString := s.data.map Char.toNat

/-- Go slice expression `s[lo:hi]`. -/
def slice (s : GoString) (lo hi : Nat) : GoString := (s.take hi).drop lo

/-! ## unicode/utf8 -/

/-- Constant `utf8.RuneSelf`. -/
def RuneSelf : Nat := 0x80

/-- Constant `utf8.RuneError`. -/
def RuneError : Nat := 0xFFFD

/-- Constant `utf8.UTFMax`. -/
def UTFMax : Nat := 4

/-- Table `first` of package utf8: information about the first byte of an
encoding.  `0xF0` is ASCII (`as`), `0xF1` is invalid (`xx`); otherwise the
low three bits are the size and the high four bits index `acceptRanges`. -/
def first (p0 : Nat) : Nat :=
  if p0 < 0x80 then 0xF0          -- as
  else if p0 < 0xC2 then 0xF1     -- xx
  else if p0 < 0xE0 then 0x02     -- s1
  else if p0 = 0xE0 then 0x13     -- s2
  else if p0 < 0xED then 0x03     -- s3
  else if p0 = 0xED then 0x23     -- s4
  else if p0 < 0xF0 then 0x03     -- s3
  else if p0 = 0xF0 then 0x34     -- s5
  else if p0 < 0xF4 then 0x04     -- s6
  else if p0 = 0xF4 then 0x44     -- s7
  else 0xF1                       -- xx

/-- Table `acceptRanges` of package utf8: the range `(lo, hi)` of valid
second bytes. -/
def acceptRanges (i : Nat) : Nat × Nat :=
  if i = 0 then (0x80, 0xBF)
  else if i = 1 then (0xA0, 0xBF)
  else if i = 2 then (0x80, 0x9F)
  else if i = 3 then (0x90, 0xBF)
  else if i = 4 then (0x80, 0x8F)
  else (0, 0)

/-- Go `utf8.DecodeRune` (and `utf8.DecodeRuneInString`): the first rune of
`p` and its width in bytes; `(RuneError, 0)` on empty input and
`(RuneError, 1)` on an invalid encoding. -/
def DecodeRune (p : GoString) : Nat × Nat :=
  match p with
  | [] => (RuneError, 0)
  | p0 :: t =>
    let x := first p0
    if x ≥ 0xF0 then
      (if x = 0xF0 then p0 else RuneError, 1)
    else
      let sz := x % 8
      let accept := acceptRanges (x / 16)
      if p.length < sz then (RuneError, 1)
      else
        let b1 := t.getD 0 0
        if b1 < accept.1 ∨ accept.2 < b1 then (RuneError, 1)
        else if sz ≤ 2 then ((p0 % 32) * 64 + b1 % 64, 2)
        else
          let b2 := t.getD 1 0
          if b2 < 0x80 ∨ 0xBF < b2 then (RuneError, 1)
          else if sz ≤ 3 then ((p0 % 16) * 4096 + (b1 % 64) * 64 + b2 % 64, 3)
          else
            let b3 := t.getD 2 0
            if b3 < 0x80 ∨ 0xBF < b3 then (RuneError, 1)
            else ((p0 % 8) * 262144 + (b1 % 64) * 4096 + (b2 % 64) * 64 + b3 % 64, 4)

/-- Go `utf8.RuneStart`: the byte is not a continuation byte. -/
def RuneStart (b : Nat) : Bool := decide (b / 64 ≠ 2)

/-- The backwards scan of `utf8.DecodeLastRuneInString`:
`for start--; start >= lim; start-- { if RuneStart(s[start]) { break } }`,
entered after the first decrement with `start + 1 = n`; the result is
`start + 1` when the loop ends (`0` stands for `start = -1`). -/
def lastRuneStart (s : GoString) (lim : Nat) : Nat → Nat
  | 0 => 0
  | n + 1 =>
    if n < lim then n + 1
    else if RuneStart (s.getD n 0) then n + 1
    else lastRuneStart s lim n

/-- Go `utf8.DecodeLastRuneInString`: the last rune of `s` and its width. -/
def DecodeLastRuneInString (s : GoString) : Nat × Nat :=
  let «end» := s.length
  if «end» = 0 then (RuneError, 0)
  else
    let r := s.getD («end» - 1) 0
    if r < RuneSelf then (r, 1)
    else
      -- `lim < 0` is reset to `0` (truncated subtraction)
      let lim := «end» - UTFMax
      -- `start1` is `start + 1`; `start < 0` is reset to `0`
      let start1 := lastRuneStart s lim («end» - 1)
      let start := start1 - 1
      let (r, size) := DecodeRune (slice s start «end»)
      if start + size ≠ «end» then (RuneError, 1) else (r, size)

/-! ## unicode -/

/-- Go `unicode.IsSpace`: the Latin-1 cases are listed in the function, the
others are the `White_Space` table. -/
def IsSpace (r : Nat) : Bool :=
  if r ≤ 0xFF then
    decide (r = 0x09 ∨ r = 0x0A ∨ r = 0x0B ∨ r = 0x0C ∨ r = 0x0D ∨ r = 0x20 ∨ r = 0x85 ∨ r = 0xA0)
  else
    decide (r = 0x1680 ∨ (0x2000 ≤ r ∧ r ≤ 0x200A) ∨ r = 0x2028 ∨ r = 0x2029 ∨
      r = 0x202F ∨ r = 0x205F ∨ r = 0x3000)

/-! ## strings -/

/-- Go `strings.IndexByte`: index of the first `c` in `s`, or `-1`. -/
def IndexByte : GoString → Nat → Int
  | [], _ => -1
  | b :: rest, c =>
    if b = c then 0
    else
      let i := IndexByte rest c
      if i = -1 then -1 else i + 1

/-- Loop of `strings.indexFunc`, `for i, r := range s`: `i` is the byte
offset of `s` in the whole string, `skip` counts the bytes of the current
rune still to pass over. -/
def indexFuncLoop (f : Nat → Bool) (truth : Bool) : Nat → Nat → GoString → Int
  | _, _, [] => -1
  | i, skip + 1, _ :: rest => indexFuncLoop f truth (i + 1) skip rest
  | i, 0, c :: rest =>
    let (r, size) := DecodeRune (c :: rest)
    if f r = truth then (i : Int)
    else indexFuncLoop f truth (i + 1) (size - 1) rest

/-- Go `strings.indexFunc`. -/
def indexFunc (s : GoString) (f : Nat → Bool) (truth : Bool) : Int :=
  indexFuncLoop f truth 0 0 s

/-- Go `strings.IndexFunc`. -/
def IndexFunc (s : GoString) (f : Nat → Bool) : Int := indexFunc s f true

/-- Loop of `strings.lastIndexFunc`, `for i := len(s); i > 0; { ... }`; the
first argument bounds the number of iterations (each one lowers `i`). -/
def lastIndexFuncLoop (s : GoString) (f : Nat → Bool) (truth : Bool) : Nat → Nat → Int
  | 0, _ => -1
  | fuel + 1, i =>
    if i = 0 then -1
    else
      let (r, size) := DecodeLastRuneInString (slice s 0 i)
      let i := i - size
      if f r = truth then (i : Int)
      else lastIndexFuncLoop s f truth fuel i

/-- Go `strings.lastIndexFunc`. -/
def lastIndexFunc (s : GoString) (f : Nat → Bool) (truth : Bool) : Int :=
  lastIndexFuncLoop s f truth s.length s.length

/-- Go `strings.TrimLeftFunc`. -/
def TrimLeftFunc (s : GoString) (f : Nat → Bool) : GoString :=
  let i := indexFunc s f false
  if i = -1 then [] else s.drop i.toNat

/-- Go `strings.TrimRightFunc`. -/
def TrimRightFunc (s : GoString) (f : Nat → Bool) : GoString :=
  let i := lastIndexFunc s f false
  if 0 ≤ i ∧ s.getD i.toNat 0 ≥ RuneSelf then
    let wid := (DecodeRune (s.drop i.toNat)).2
    slice s 0 (i.toNat + wid)
  else
    slice s 0 (i + 1).toNat

/-- Go `strings.TrimFunc`. -/
def TrimFunc (s : GoString) (f : Nat → Bool) : GoString :=
  TrimRightFunc (TrimLeftFunc s f) f

/-- Table `asciiSpace` of package strings. -/
def asciiSpace (c : Nat) : Nat :=
  if c = 0x09 ∨ c = 0x0A ∨ c = 0x0B ∨ c = 0x0C ∨ c = 0x0D ∨ c = 0x20 then 1 else 0

/-- Second loop of `strings.TrimSpace`, run over the reversed remainder
`s[start:]`: looks for the first ASCII non-space byte from the end. -/
def trimSpaceStop : GoString → GoString
  | [] => []
  | c :: revRest =>
    if c ≥ RuneSelf then TrimRightFunc (c :: revRest).reverse IsSpace
    else if asciiSpace c = 0 then (c :: revRest).reverse
    else trimSpaceStop revRest

/-- Go `strings.TrimSpace`: the first loop looks for the first ASCII
non-space byte and falls back to `TrimFunc` on a non-ASCII byte. -/
def TrimSpace : GoString → GoString
  | [] => []
  | c :: rest =>
    if c ≥ RuneSelf then TrimFunc (c :: rest) IsSpace
    else if asciiSpace c = 0 then trimSpaceStop (c :: rest).reverse
    else TrimSpace rest

/-! ## text/template: JSEscapeString -/

/-- Go `jsIsSpecial` of package text/template. -/
def jsIsSpecial (r : Nat) : Bool :=
  if r = 0x5C ∨ r = 0x27 ∨ r = 0x22 ∨ r = 0x3C ∨ r = 0x3E ∨ r = 0x26 ∨ r = 0x3D then true
  else decide (r < 0x20 ∨ RuneSelf ≤ r)

/-- Table `hex` of package text/template, `"0123456789ABCDEF"`. -/
def hex : GoString := lit "0123456789ABCDEF"

/-- Upper-case hexadecimal digits of `n`, most significant first, as
`fmt` prints them for the verb `%X`; the first argument bounds the number
of digits. -/
def fmtHexDigits : Nat → Nat → GoString
  | 0, _ => []
  | fuel + 1, n =>
    if n < 16 then [hex.getD n 0]
    else fmtHexDigits fuel (n / 16) ++ [hex.getD (n % 16) 0]

/-- Go `fmt.Sprintf("%04X", r)` for a non-negative `r`: upper-case
hexadecimal, padded with zeros to at least four digits. -/
def fmt04X (r : Nat) : GoString :=
  let ds := fmtHexDigits (r + 1) r
  List.replicate (4 - ds.length) 0x30 ++ ds

/-- What `JSEscape` writes for the special ASCII byte `c` (the `switch` of
the branch `c < utf8.RuneSelf`). -/
def jsEscapeASCII (c : Nat) : GoString :=
  if c = 0x5C then lit "\\\\"            -- jsBackslash
  else if c = 0x27 then lit "\\'"        -- jsApos
  else if c = 0x22 then lit "\\\""       -- jsQuot
  else if c = 0x3C then lit "\\u003C"    -- jsLt
  else if c = 0x3E then lit "\\u003E"    -- jsGt
  else if c = 0x26 then lit "\\u0026"    -- jsAmp
  else if c = 0x3D then lit "\\u003D"    -- jsEq
  else
    -- jsLowUni, then hex[t : t+1] and hex[b : b+1] for t, b := c>>4, c&0x0f
    lit "\\u00" ++ [hex.getD (c / 16) 0] ++ [hex.getD (c % 16) 0]

/-- Loop of Go `template.JSEscape` over the bytes from position `i` on;
the first argument counts the bytes of the current rune that the loop
passes over through `i += size - 1`.  The unescaped stretches `b[last:i]`
are written byte by byte. -/
def jsEscapeLoop (isPrint : Nat → Bool) : Nat → GoString → GoString
  | _, [] => []
  | skip + 1, _ :: rest => jsEscapeLoop isPrint skip rest
  | 0, c :: rest =>
    if !jsIsSpecial c then c :: jsEscapeLoop isPrint 0 rest
    else if c < RuneSelf then jsEscapeASCII c ++ jsEscapeLoop isPrint 0 rest
    else
      let (r, size) := DecodeRune (c :: rest)
      (if isPrint r then slice (c :: rest) 0 size else lit "\\u" ++ fmt04X r)
        ++ jsEscapeLoop isPrint (size - 1) rest

/-- Go `template.JSEscape`, with the writer replaced by the bytes written. -/
def JSEscape (isPrint : Nat → Bool) (b : GoString) : GoString :=
  jsEscapeLoop isPrint 0 b

/-- Go `template.JSEscapeString`. -/
def JSEscapeString (isPrint : Nat → Bool) (s : GoString) : GoString :=
  if IndexFunc s jsIsSpecial < 0 then s
  else JSEscape isPrint s

/-! ## net/url: PathEscape -/

/-- Table `upperhex` of package net/url. -/
def upperhex : GoString := lit "0123456789ABCDEF"

/-- Go `shouldEscape(c, encodePathSegment)` of package net/url. -/
def shouldEscape (c : Nat) : Bool :=
  -- unreserved characters (alphanum)
  if (0x61 ≤ c ∧ c ≤ 0x7A) ∨ (0x41 ≤ c ∧ c ≤ 0x5A) ∨ (0x30 ≤ c ∧ c ≤ 0x39) then false
  -- unreserved characters (mark): - _ . ~
  else if c = 0x2D ∨ c = 0x5F ∨ c = 0x2E ∨ c = 0x7E then false
  -- reserved characters: $ & + , / : ; = ? @
  else if c = 0x24 ∨ c = 0x26 ∨ c = 0x2B ∨ c = 0x2C ∨ c = 0x2F ∨ c = 0x3A ∨ c = 0x3B ∨
      c = 0x3D ∨ c = 0x3F ∨ c = 0x40 then
    -- case encodePathSegment
    decide (c = 0x2F ∨ c = 0x3B ∨ c = 0x2C ∨ c = 0x3F)
  -- everything else must be escaped
  else true

/-- Second loop of Go `url.escape` in mode `encodePathSegment`: a byte to
escape becomes `%`, `upperhex[c>>4]`, `upperhex[c&15]`. -/
def escapeLoop : GoString → GoString
  | [] => []
  | c :: rest =>
    if shouldEscape c then
      [0x25, upperhex.getD (c / 16) 0, upperhex.getD (c % 16) 0] ++ escapeLoop rest
    else c :: escapeLoop rest

/-- Go `url.escape(s, encodePathSegment)`: the first loop counts the bytes
to escape (`hexCount`; `spaceCount` stays zero in this mode). -/
def escape (s : GoString) : GoString :=
  let hexCount := s.countP shouldEscape
  if hexCount = 0 then s
  else escapeLoop s

/-- Go `url.PathEscape`. -/
def PathEscape (s : GoString) : GoString := escape s

/-! ## net/http -/

/-- Go `http.Header`, a `map[string][]string`, as an association list in
which a key occurs at most once.  The keys the program uses are literals
already in canonical form, so `textproto.CanonicalMIMEHeaderKey` leaves
them as they are. -/
structure Header where
  entries : List (GoString × List GoString)
  deriving DecidableEq

/-- Map lookup in an association list. -/
def lookupKey : List (GoString × List GoString) → GoString → Option (List GoString)
  | [], _ => none
  | kv :: rest, key => if kv.1 = key then some kv.2 else lookupKey rest key

namespace Header

/-- Map index expression `h[key]` with its presence flag. -/
def values (h : Header) (key : GoString) : Option (List GoString) :=
  lookupKey h.entries key

/-- Go `Header.Get`: the first value of the key, or the empty string. -/
def Get (h : Header) (key : GoString) : GoString :=
  match h.values key with
  | some (v :: _) => v
  | _ => []

/-- Go `Header.Del`. -/
def Del (h : Header) (key : GoString) : Header :=
  ⟨h.entries.filter (fun kv => !decide (kv.1 = key))⟩

/-- Go `Header.Set`: the key gets the single value. -/
def Set (h : Header) (key value : GoString) : Header :=
  ⟨(key, [value]) :: (h.Del key).entries⟩

end Header

/-- The `*http.Request` the handler receives, reduced to what it reads:
the method and the outcome of `ioutil.ReadAll(r.Body)` (the bytes, or the
text of the read error). -/
structure Request where
  Method : GoString
  Body : Except GoString GoString

/-- The `*http.Request` the handler builds for the upstream server. -/
structure ClientRequest where
  Method : GoString
  URL : GoString
  Header : Header
  Body : GoString
  deriving DecidableEq

/-- The `*http.Response` of the upstream server; `Body` holds the bytes
that reading `resp.Body` yields. -/
structure Response where
  StatusCode : Int
  Header : Header
  Body : GoString
  deriving DecidableEq

/-- The `config` struct. -/
structure config where
  HTTPAddr : GoString
  HTTPPath : GoString
  Token : GoString
  Zone : GoString
  RecordA : GoString
  RecordAAAA : GoString
  deriving DecidableEq

/-- The outside world. -/
structure Env where
  /-- Go `unicode.IsPrint` (Unicode tables). -/
  IsPrint : Nat → Bool
  /-- Whether `url.Parse` accepts the text; the error text otherwise. -/
  urlParse : GoString → Except GoString Unit
  /-- Go `http.DefaultClient.Do`: the upstream response, or the error text. -/
  Do : ClientRequest → Except GoString Response
  /-- Go `toml.DecodeFile(path, conf)` on a zero `config`: the struct as the
  decoder fills it and the keys of `metaData.Undecoded()`, or the error
  text. -/
  DecodeFile : GoString → Except GoString (config × List GoString)

/-- Go `http.NewRequestWithContext`.  The caller passes the literal method
`PATCH` (a valid method) and the context of the inbound request (never
nil), so the construction fails exactly when `url.Parse` does. -/
def NewRequestWithContext (env : Env) (method url body : GoString) :
    Except GoString ClientRequest :=
  match env.urlParse url with
  | .error err => .error err
  | .ok _ => .ok { Method := method, URL := url, Header := ⟨[]⟩, Body := body }

/-- The state of an `http.ResponseWriter` as the handler drives it. -/
structure ResponseWriter where
  /-- The map returned by `w.Header()`. -/
  header : Header
  /-- The status code of the first `WriteHeader` and the header map at
  that moment; `none` while no header has been written. -/
  wroteHeader : Option (Int × Header)
  /-- The bytes written so far. -/
  body : GoString
  /-- The status code on which a call of `WriteHeader` panicked
  (`invalid WriteHeader code`); the handler ends with that call. -/
  panicked : Option Int := none
  deriving DecidableEq

/-- Go `checkWriteHeaderCode` of package net/http, as a test: the code is
one on which the function panics, `code < 100 || code > 999`. -/
def invalidWriteHeaderCode (code : Int) : Bool := decide (code < 100 ∨ code > 999)

namespace ResponseWriter

/-- A writer as the server hands it to a handler. -/
def fresh : ResponseWriter := { header := ⟨[]⟩, wroteHeader := none, body := [] }

/-- The call `w.WriteHeader(code)` panics: no header has been written yet
and `checkWriteHeaderCode` rejects the code. -/
def WriteHeaderPanics (w : ResponseWriter) (code : Int) : Bool :=
  w.wroteHeader.isNone && invalidWriteHeaderCode code

/-- Go `w.WriteHeader(code)`: a call after the first returns at once; the
first call panics in `checkWriteHeaderCode` on a code outside 100..999 and
otherwise records the code with the header map.  The informational codes
(100..199 other than 101), which the client consumes itself and does not
hand to its caller, are recorded like the others. -/
def WriteHeader (w : ResponseWriter) (code : Int) : ResponseWriter :=
  match w.wroteHeader with
  | some _ => w
  | none =>
    if invalidWriteHeaderCode code then { w with panicked := some code }
    else { w with wroteHeader := some (code, w.header) }

/-- Go `w.Write(b)`: writes the header with status 200 first when none has
been written. -/
def Write (w : ResponseWriter) (b : GoString) : ResponseWriter :=
  let w := if w.wroteHeader.isNone then w.WriteHeader 200 else w
  { w with body := w.body ++ b }

/-- The status code sent, if any. -/
def status (w : ResponseWriter) : Option Int := w.wroteHeader.map (fun p => p.1)

/-- The header map sent, if any. -/
def sentHeader (w : ResponseWriter) : Option Header := w.wroteHeader.map (fun p => p.2)

end ResponseWriter

/-- Go `http.Error`: drops `Content-Length`, sets the two headers of a
plain-text reply, writes the status and prints the message with
`fmt.Fprintln`, which puts a newline after it.  When `WriteHeader` panics
nothing is printed. -/
def Error (w : ResponseWriter) (error : GoString) (code : Int) : ResponseWriter :=
  let w := { w with header := w.header.Del (lit "Content-Length") }
  let w := { w with header := w.header.Set (lit "Content-Type") (lit "text/plain; charset=utf-8") }
  let w := { w with header := w.header.Set (lit "X-Content-Type-Options") (lit "nosniff") }
  if w.WriteHeaderPanics code then w.WriteHeader code
  else
    let w := w.WriteHeader code
    w.Write (error ++ [0x0A])

/-- Go `io.Copy(w, src)`: nothing is written for an empty source. -/
def Copy (w : ResponseWriter) (src : GoString) : ResponseWriter :=
  if src = [] then w else w.Write src

/-! ## main.go -/

/-- The `updateHandler` struct. -/
structure updateHandler where
  Config : config

/-- What a call of the handler leaves behind. -/
structure Outcome where
  /-- The response writer after the call. -/
  w : ResponseWriter
  /-- The requests handed to `http.DefaultClient.Do`, in order. -/
  sent : List ClientRequest
  /-- The lines handed to package `log`. -/
  log : List GoString
  deriving DecidableEq

/-- The value of the `Server` header (line 57). -/
def serverValue : GoString :=
  lit "mikrotik-cf-ddns/1.0 (+https://github.com/GreenYun/mikrotik-cf-ddns)"

/-- The local `reqBodyText` of `updateRecord` (line 91):
`fmt.Sprintf` of the value escaped by `template.JSEscapeString`. -/
def reqBodyText (env : Env) (value : GoString) : GoString :=
  lit "\x7b\"content\":\"" ++ JSEscapeString env.IsPrint value ++ lit "\"\x7d"

/-- The URL text of `updateRecord` (line 93). -/
def upstreamURL (zoneID recordID : GoString) : GoString :=
  lit "https://api.cloudflare.com/client/v4/zones/" ++ PathEscape zoneID ++
    lit "/dns_records/" ++ PathEscape recordID

/-- Method `updateHandler.updateRecord`. -/
def updateRecord (env : Env) (h : updateHandler) (w : ResponseWriter) (_r : Request)
    (zoneID recordID value : GoString) : Outcome :=
  match NewRequestWithContext env (lit "PATCH") (upstreamURL zoneID recordID)
      (reqBodyText env value) with
  | .error err =>
    { w := Error w (lit "cannot connect to upstream server") 502
      sent := []
      log := [lit "cannot connect to upstream server: " ++ err ++ [0x0A]] }
  | .ok req =>
    let req := { req with Header := req.Header.Set (lit "Authorization") (lit "Bearer " ++ h.Config.Token) }
    let req := { req with Header := req.Header.Set (lit "Content-Type") (lit "application/json") }
    match env.Do req with
    | .error err =>
      { w := Error w (lit "cannot connect to upstream server") 502
        sent := [req]
        log := [lit "cannot connect to upstream server: " ++ err ++ [0x0A]] }
    | .ok resp =>
      let value := resp.Header.Get (lit "Content-Length")
      let w := if value ≠ [] then { w with header := w.header.Set (lit "Content-Length") value } else w
      let value := resp.Header.Get (lit "Content-Type")
      let w := if value ≠ [] then { w with header := w.header.Set (lit "Content-Type") value } else w
      if w.WriteHeaderPanics resp.StatusCode then
        -- the panic of `w.WriteHeader` ends the handler before `io.Copy`
        { w := w.WriteHeader resp.StatusCode, sent := [req], log := [] }
      else
        let w := w.WriteHeader resp.StatusCode
        { w := Copy w resp.Body, sent := [req], log := [] }

/-- Method `updateHandler.ServeHTTP`. -/
def ServeHTTP (env : Env) (h : updateHandler) (w : ResponseWriter) (r : Request) : Outcome :=
  let w := { w with header := w.header.Set (lit "Server") serverValue }
  if r.Method ≠ lit "POST" then
    { w := Error w (lit "") 405, sent := [], log := [] }
  else
    match r.Body with
    | .error err =>
      { w := Error w (lit "") 500, sent := [], log := [err ++ [0x0A]] }
    | .ok body =>
      let bodyText := TrimSpace body
      if IndexByte bodyText 0x3A = -1 then
        if h.Config.RecordA = lit "" then
          { w := Error w (lit "IPv4 address support is not enabled") 400
            sent := []
            log := [lit "IPv4 address support is not enabled" ++ [0x0A]] }
        else updateRecord env h w r h.Config.Zone h.Config.RecordA bodyText
      else if h.Config.RecordAAAA = lit "" then
        { w := Error w (lit "IPv6 address support is not enabled") 400
          sent := []
          log := [lit "IPv6 address support is not enabled" ++ [0x0A]] }
      else updateRecord env h w r h.Config.Zone h.Config.RecordAAAA bodyText

/-- How a call of `parseConfig` ends: it returns its pair of results, or it
panics on an undecoded key. -/
inductive ParseOutcome where
  | returns (conf : Option config) (err : Option GoString)
  | panics (key : GoString)
  deriving DecidableEq

/-- Function `parseConfig`. -/
def parseConfig (env : Env) (path : GoString) : ParseOutcome :=
  match env.DecodeFile path with
  | .error err => .returns none (some err)
  | .ok (conf, undecoded) =>
    match undecoded with
    | key :: _ => .panics key
    | [] =>
      let conf := if conf.HTTPAddr = lit "" then { conf with HTTPAddr := lit ":28275" } else conf
      let conf := if conf.HTTPPath = lit "" then { conf with HTTPPath := lit "/update" } else conf
      if conf.Token = lit "" then .returns none (some (lit "token is empty"))
      else if conf.Zone = lit "" then .returns none (some (lit "zone is empty"))
      else .returns (some conf) none

/-! ## JSON texts (RFC 8259)

The upstream body is meant to be the JSON text of an object with the one
member `content`.  The recogniser below follows the grammar of RFC 8259 on
bytes; it does not insist on valid UTF-8 in unescaped characters.
-/

/-- JSON insignificant whitespace: space, tab, line feed, carriage return. -/
def jsonIsWs (c : Nat) : Bool := decide (c = 0x20 ∨ c = 0x09 ∨ c = 0x0A ∨ c = 0x0D)

/-- Drops leading JSON whitespace. -/
def jsonSkipWs : GoString → GoString
  | [] => []
  | c :: rest => if jsonIsWs c then jsonSkipWs rest else c :: rest

/-- A hexadecimal digit, `0-9`, `A-F` or `a-f`, and its value. -/
def jsonHexVal (c : Nat) : Option Nat :=
  if 0x30 ≤ c ∧ c ≤ 0x39 then some (c - 0x30)
  else if 0x41 ≤ c ∧ c ≤ 0x46 then some (c - 0x41 + 10)
  else if 0x61 ≤ c ∧ c ≤ 0x66 then some (c - 0x61 + 10)
  else none

/-- What a two-character escape denotes: the character after the
backslash is one of `"` `\` `/` `b` `f` `n` `r` `t`. -/
def jsonSimpleEscape (c : Nat) : Option Nat :=
  if c = 0x22 then some 0x22
  else if c = 0x5C then some 0x5C
  else if c = 0x2F then some 0x2F
  else if c = 0x62 then some 0x08
  else if c = 0x66 then some 0x0C
  else if c = 0x6E then some 0x0A
  else if c = 0x72 then some 0x0D
  else if c = 0x74 then some 0x09
  else none

/-- Where the scan of a JSON string stands. -/
inductive JsonStrState where
  /-- Between characters. -/
  | plain
  /-- Right after a backslash. -/
  | escaped
  /-- Inside `\uXXXX`: the digits still to read and the value read so far. -/
  | unicode (left : Nat) (acc : Nat)

/-- Scans the characters of a JSON string after its opening quotation
mark.  Gives the denoted characters (an unescaped byte denotes itself, an
escape its code unit) and the text after the closing quotation mark;
`none` when the text is not a JSON string. -/
def jsonScanString : JsonStrState → GoString → Option (List Nat × GoString)
  | _, [] => none
  | .plain, c :: rest =>
    if c = 0x22 then some ([], rest)
    else if c = 0x5C then jsonScanString .escaped rest
    else if c < 0x20 then none
    else (jsonScanString .plain rest).map (fun p => (c :: p.1, p.2))
  | .escaped, c :: rest =>
    if c = 0x75 then jsonScanString (.unicode 4 0) rest
    else
      match jsonSimpleEscape c with
      | none => none
      | some d => (jsonScanString .plain rest).map (fun p => (d :: p.1, p.2))
  | .unicode left acc, c :: rest =>
    match jsonHexVal c with
    | none => none
    | some v =>
      if left ≤ 1 then
        (jsonScanString .plain rest).map (fun p => ((acc * 16 + v) :: p.1, p.2))
      else jsonScanString (.unicode (left - 1) (acc * 16 + v)) rest

/-- Takes the byte `c` off the front of the text. -/
def jsonExpect (c : Nat) : GoString → Option GoString
  | [] => none
  | b :: rest => if b = c then some rest else none

/-- A JSON string token at the front of the text: the denoted characters
and the rest. -/
def jsonString (s : GoString) : Option (List Nat × GoString) :=
  (jsonExpect 0x22 s).bind (jsonScanString .plain)

/-- The text is a well-formed JSON document that is an object with exactly
one member, named `content`, holding a JSON string:
`ws { ws string ws : ws string ws } ws` with the first string denoting
`content`. -/
def isContentObject (s : GoString) : Bool :=
  match (jsonExpect 0x7B (jsonSkipWs s)).bind (fun t => jsonString (jsonSkipWs t)) with
  | none => false
  | some (name, t) =>
    decide (name = lit "content") &&
    match (jsonExpect 0x3A (jsonSkipWs t)).bind (fun t => jsonString (jsonSkipWs t)) with
    | none => false
    | some (_, t) =>
      match jsonExpect 0x7D (jsonSkipWs t) with
      | none => false
      | some t => decide (jsonSkipWs t = [])

/-- The bytes form a run of complete JSON string characters: scanning them
from the given state consumes them all and ends between characters,
without meeting the closing quotation mark. -/
def jsonCharsOk : JsonStrState → GoString → Bool
  | .plain, [] => true
  | .escaped, [] => false
  | .unicode _ _, [] => false
  | .plain, c :: rest =>
    if c = 0x22 then false
    else if c = 0x5C then jsonCharsOk .escaped rest
    else if c < 0x20 then false
    else jsonCharsOk .plain rest
  | .escaped, c :: rest =>
    if c = 0x75 then jsonCharsOk (.unicode 4 0) rest
    else
      match jsonSimpleEscape c with
      | none => false
      | some _ => jsonCharsOk .plain rest
  | .unicode left acc, c :: rest =>
    match jsonHexVal c with
    | none => false
    | some v =>
      if left ≤ 1 then jsonCharsOk .plain rest
      else jsonCharsOk (.unicode (left - 1) (acc * 16 + v)) rest

/-- The request that `updateRecord` hands to `http.DefaultClient.Do` once
construction has succeeded (lines 93 to 101): method, URL, the two headers
set on the empty header map, and the body. -/
def upstreamRequest (env : Env) (h : updateHandler) (zoneID recordID value : GoString) :
    ClientRequest :=
  { Method := lit "PATCH"
    URL := upstreamURL zoneID recordID
    Header := (Header.Set (Header.Set ⟨[]⟩ (lit "Authorization") (lit "Bearer " ++ h.Config.Token))
      (lit "Content-Type") (lit "application/json"))
    Body := reqBodyText env value }

/-! ## Examples used by the closed statements -/

/-- A handler with zone `Z`, IPv4 record `R`, token `T` and no IPv6 record. -/
def exampleHandler : updateHandler :=
  ⟨{ HTTPAddr := lit ":28275", HTTPPath := lit "/update", Token := lit "T",
     Zone := lit "Z", RecordA := lit "R", RecordAAAA := lit "" }⟩

/-- A handler with zone `Z`, IPv6 record `R6`, token `T` and no IPv4 record. -/
def exampleHandlerV6 : updateHandler :=
  ⟨{ HTTPAddr := lit ":28275", HTTPPath := lit "/update", Token := lit "T",
     Zone := lit "Z", RecordA := lit "", RecordAAAA := lit "R6" }⟩

/-- A handler with both records configured. -/
def exampleHandlerDual : updateHandler :=
  ⟨{ HTTPAddr := lit ":28275", HTTPPath := lit "/update", Token := lit "T",
     Zone := lit "Z", RecordA := lit "R", RecordAAAA := lit "R6" }⟩

/-- An upstream reply: status 200 with a JSON body, a content type, a
content length and a cookie. -/
def exampleResponse : Response :=
  { StatusCode := 200
    Header := ⟨[(lit "Content-Type", [lit "application/json"]),
                (lit "Content-Length", [lit "16"]),
                (lit "Set-Cookie", [lit "a=b"]),
                (lit "Server", [lit "cloudflare"])]⟩
    Body := lit "\x7b\"success\":true\x7d" }

/-- A configuration file holding only `token` and `zone`. -/
def exampleFile : config :=
  { HTTPAddr := lit "", HTTPPath := lit "", Token := lit "T", Zone := lit "Z",
    RecordA := lit "", RecordAAAA := lit "" }

/-- A world in which every rune from U+00A1 on counts as printable, every
URL parses, the upstream answers with `exampleResponse` and the
configuration file decodes to `exampleFile`. -/
def exampleEnv : Env :=
  { IsPrint := fun r => decide (0xA1 ≤ r)
    urlParse := fun _ => .ok ()
    Do := fun _ => .ok exampleResponse
    DecodeFile := fun _ => .ok (exampleFile, []) }

/-- A world like `exampleEnv` in which the upstream refuses the connection. -/
def exampleEnvRefused : Env :=
  { exampleEnv with Do := fun _ => .error (lit "dial tcp: connection refused") }

/-- An upstream reply with the status line `000`: status code 0 and the
one-byte body `x`. -/
def exampleResponseZero : Response :=
  { StatusCode := 0, Header := ⟨[]⟩, Body := lit "x" }

/-- A world like `exampleEnv` in which the upstream answers with
`exampleResponseZero`. -/
def exampleEnvZero : Env :=
  { exampleEnv with Do := fun _ => .ok exampleResponseZero }

/-- A POST request with body `1.2.3.4`. -/
def examplePost : Request := { Method := lit "POST", Body := .ok (lit "1.2.3.4") }

/-- A POST request with body `::1` and a line end. -/
def examplePostV6 : Request := { Method := lit "POST", Body := .ok (lit "::1\n") }

/-- A GET request. -/
def exampleGet : Request := { Method := lit "GET", Body := .ok (lit "1.2.3.4") }

/-! ## Lemmas on the library routines -/

theorem IndexByte_ge (s : GoString) (c : Nat) : -1 ≤ IndexByte s c := by
  induction s with
  | nil => simp [IndexByte]
  | cons b rest ih =>
    simp only [IndexByte]
    split
    · omega
    · split <;> omega

theorem IndexByte_eq_neg_one_iff (s : GoString) (c : Nat) :
    IndexByte s c = -1 ↔ c ∉ s := by
  induction s with
  | nil => simp [IndexByte]
  | cons b rest ih =>
    have hge := IndexByte_ge rest c
    simp only [IndexByte, List.mem_cons, not_or]
    by_cases hbc : b = c
    · simp [hbc]
    · have hcb : ¬ c = b := fun h => hbc h.symm
      simp only [hbc, if_false, hcb, not_false_eq_true, true_and]
      by_cases hi : IndexByte rest c = -1
      · simp [hi, ← ih]
      · simp only [hi, if_false, ← ih, iff_false]
        omega

theorem lookupKey_filter_ne (l : List (GoString × List GoString)) (key k : GoString) :
    lookupKey (l.filter (fun kv => !decide (kv.1 = key))) k =
      if k = key then none else lookupKey l k := by
  induction l with
  | nil => simp [lookupKey]
  | cons kv rest ih =>
    by_cases h1 : kv.1 = key
    · by_cases h2 : k = key
      · subst h2
        simpa [List.filter, h1] using ih
      · have h3 : ¬ key = k := fun h => h2 h.symm
        simp [List.filter, h1, ih, h2, lookupKey, h3]
    · by_cases h2 : kv.1 = k
      · have h3 : ¬ k = key := fun h => h1 (h2.trans h)
        simp [List.filter, h1, lookupKey, h2, h3]
      · simp [List.filter, h1, lookupKey, h2, ih]

theorem Header.values_Del (h : Header) (key k : GoString) :
    (h.Del key).values k = if k = key then none else h.values k := by
  simp [Header.Del, Header.values, lookupKey_filter_ne]

theorem Header.values_Set_self (h : Header) (key value : GoString) :
    (h.Set key value).values key = some [value] := by
  simp [Header.Set, Header.values, lookupKey]

theorem Header.values_Set_of_ne (h : Header) (key value k : GoString) (hk : k ≠ key) :
    (h.Set key value).values k = h.values k := by
  have h1 : ¬ key = k := fun e => hk e.symm
  have h2 := Header.values_Del h key k
  simp only [Header.values] at h2
  simp [Header.Set, Header.values, lookupKey, h1, h2, hk]

theorem Header.Get_Set_self (h : Header) (key value : GoString) :
    (h.Set key value).Get key = value := by
  simp [Header.Get, Header.values_Set_self]

theorem invalidWriteHeaderCode_of_valid (code : Int) (h1 : 100 ≤ code) (h2 : code ≤ 999) :
    invalidWriteHeaderCode code = false := by
  simp only [invalidWriteHeaderCode, decide_eq_false_iff_not]
  omega

theorem WriteHeaderPanics_of_valid (w : ResponseWriter) (code : Int) (h1 : 100 ≤ code)
    (h2 : code ≤ 999) : w.WriteHeaderPanics code = false := by
  simp [ResponseWriter.WriteHeaderPanics, invalidWriteHeaderCode_of_valid code h1 h2]

theorem Error_wroteHeader (w : ResponseWriter) (error : GoString) (code : Int)
    (hw : w.wroteHeader = none) (h1 : 100 ≤ code) (h2 : code ≤ 999) :
    (Error w error code).wroteHeader = some (code, (Error w error code).header) := by
  simp [Error, ResponseWriter.Write, ResponseWriter.WriteHeader, hw,
    ResponseWriter.WriteHeaderPanics, invalidWriteHeaderCode_of_valid code h1 h2]

theorem Error_status (w : ResponseWriter) (error : GoString) (code : Int)
    (hw : w.wroteHeader = none) (h1 : 100 ≤ code) (h2 : code ≤ 999) :
    (Error w error code).status = some code := by
  simp [ResponseWriter.status, Error_wroteHeader w error code hw h1 h2]

theorem Error_body (w : ResponseWriter) (error : GoString) (code : Int)
    (h1 : 100 ≤ code) (h2 : code ≤ 999) :
    (Error w error code).body = w.body ++ error ++ [0x0A] := by
  simp only [Error, ResponseWriter.Write, ResponseWriter.WriteHeader,
    ResponseWriter.WriteHeaderPanics, invalidWriteHeaderCode_of_valid code h1 h2]
  cases w.wroteHeader <;> simp

theorem Error_header_values (w : ResponseWriter) (error : GoString) (code : Int)
    (k : GoString) (h1 : k ≠ lit "Content-Length") (h2 : k ≠ lit "Content-Type")
    (h3 : k ≠ lit "X-Content-Type-Options") :
    (Error w error code).header.values k = w.header.values k := by
  have e : (Error w error code).header =
      ((w.header.Del (lit "Content-Length")).Set (lit "Content-Type")
        (lit "text/plain; charset=utf-8")).Set (lit "X-Content-Type-Options") (lit "nosniff") := by
    simp only [Error, ResponseWriter.Write, ResponseWriter.WriteHeader,
      ResponseWriter.WriteHeaderPanics]
    cases w.wroteHeader <;> cases invalidWriteHeaderCode code <;> simp
  rw [e, Header.values_Set_of_ne _ _ _ _ h3, Header.values_Set_of_ne _ _ _ _ h2,
    Header.values_Del, if_neg h1]

theorem Copy_body (w : ResponseWriter) (src : GoString) (hw : w.wroteHeader ≠ none) :
    (Copy w src).body = w.body ++ src ∧ (Copy w src).wroteHeader = w.wroteHeader ∧
      (Copy w src).header = w.header := by
  unfold Copy
  by_cases hs : src = []
  · simp [hs]
  · cases hwh : w.wroteHeader with
    | none => exact absurd hwh hw
    | some p => simp [hs, ResponseWriter.Write, hwh]

theorem upperhex_getD_ne (n : Nat) :
    upperhex.getD n 0 ≠ 0x2F ∧ upperhex.getD n 0 ≠ 0x3F ∧ upperhex.getD n 0 ≠ 0x23 := by
  by_cases hn : n < 16
  · interval_cases n <;> decide
  · have hlen : upperhex.length ≤ n := by
      have : upperhex.length = 16 := by decide
      omega
    rw [List.getD_eq_default _ _ hlen]
    decide

theorem shouldEscape_false_ne (c : Nat) (hc : shouldEscape c = false) :
    c ≠ 0x2F ∧ c ≠ 0x3F ∧ c ≠ 0x23 := by
  refine ⟨?_, ?_, ?_⟩ <;> (rintro rfl; revert hc; decide)

theorem escapeLoop_mem (s : GoString) :
    ∀ b ∈ escapeLoop s, b ≠ 0x2F ∧ b ≠ 0x3F ∧ b ≠ 0x23 := by
  induction s with
  | nil => simp [escapeLoop]
  | cons c rest ih =>
    intro b hb
    simp only [escapeLoop] at hb
    by_cases hc : shouldEscape c = true
    · simp only [hc, if_true, List.cons_append, List.nil_append, List.mem_cons] at hb
      rcases hb with rfl | rfl | rfl | hb
      · decide
      · exact upperhex_getD_ne _
      · exact upperhex_getD_ne _
      · exact ih b hb
    · have hc2 : shouldEscape c = false := by simpa using hc
      simp only [hc2, Bool.false_eq_true, if_false, List.mem_cons] at hb
      rcases hb with rfl | hb
      · exact shouldEscape_false_ne _ hc2
      · exact ih b hb

theorem PathEscape_mem (s : GoString) :
    ∀ b ∈ PathEscape s, b ≠ 0x2F ∧ b ≠ 0x3F ∧ b ≠ 0x23 := by
  intro b hb
  simp only [PathEscape, escape] at hb
  by_cases h0 : List.countP shouldEscape s = 0
  · simp only [h0, if_true] at hb
    have hall := List.countP_eq_zero.1 h0 b hb
    exact shouldEscape_false_ne b (by simpa using hall)
  · simp only [h0, if_false] at hb
    exact escapeLoop_mem s b hb

theorem PathEscape_of_unreserved (s : GoString) (hs : ∀ c ∈ s, shouldEscape c = false) :
    PathEscape s = s := by
  have h0 : List.countP shouldEscape s = 0 :=
    List.countP_eq_zero.2 (fun c hc => by simp [hs c hc])
  simp [PathEscape, escape, h0]

/-! ## Lemmas on JSON texts and `template.JSEscapeString` -/

theorem jsonScanString_of_charsOk (u : GoString) :
    ∀ (st : JsonStrState) (tail : GoString), jsonCharsOk st u = true →
      (jsonScanString st (u ++ tail)).map Prod.snd =
        (jsonScanString .plain tail).map Prod.snd := by
  induction u with
  | nil =>
    intro st tail h
    cases st <;> simp_all [jsonCharsOk]
  | cons c rest ih =>
    intro st tail h
    cases st with
    | plain =>
      simp only [jsonCharsOk] at h
      simp only [List.cons_append, jsonScanString]
      split_ifs at h ⊢
      · exact ih _ tail h
      · rw [← ih _ tail h, Option.map_map]
        cases jsonScanString .plain (rest ++ tail) <;> rfl
    | escaped =>
      simp only [jsonCharsOk] at h
      simp only [List.cons_append, jsonScanString]
      split_ifs at h ⊢
      · exact ih _ tail h
      · cases hs : jsonSimpleEscape c with
        | none => simp [hs] at h
        | some d =>
          simp only [hs] at h ⊢
          rw [← ih _ tail h, Option.map_map]
          cases jsonScanString .plain (rest ++ tail) <;> rfl
    | unicode left acc =>
      simp only [jsonCharsOk] at h
      simp only [List.cons_append, jsonScanString]
      cases hv : jsonHexVal c with
      | none => simp [hv] at h
      | some v =>
        simp only [hv] at h ⊢
        split_ifs at h ⊢
        · rw [← ih _ tail h, Option.map_map]
          cases jsonScanString .plain (rest ++ tail) <;> rfl
        · exact ih _ tail h

theorem jsonCharsOk_append (u v : GoString) (hv : jsonCharsOk .plain v = true) :
    ∀ st : JsonStrState, jsonCharsOk st u = true → jsonCharsOk st (u ++ v) = true := by
  induction u with
  | nil =>
    intro st h
    cases st <;> simp_all [jsonCharsOk]
  | cons c rest ih =>
    intro st h
    cases st with
    | plain =>
      simp only [jsonCharsOk] at h
      simp only [List.cons_append, jsonCharsOk]
      split_ifs at h ⊢ <;> exact ih _ h
    | escaped =>
      simp only [jsonCharsOk] at h
      simp only [List.cons_append, jsonCharsOk]
      split_ifs at h ⊢
      · exact ih _ h
      · cases hs : jsonSimpleEscape c with
        | none => simp [hs] at h
        | some d =>
          simp only [hs] at h ⊢
          exact ih _ h
    | unicode left acc =>
      simp only [jsonCharsOk] at h
      simp only [List.cons_append, jsonCharsOk]
      cases hx : jsonHexVal c with
      | none => simp [hx] at h
      | some v =>
        simp only [hx] at h ⊢
        split_ifs at h ⊢ <;> exact ih _ h

theorem jsonCharsOk_raw (l : GoString) (hl : ∀ c ∈ l, 0x20 ≤ c ∧ c ≠ 0x22 ∧ c ≠ 0x5C) :
    jsonCharsOk .plain l = true := by
  induction l with
  | nil => rfl
  | cons c rest ih =>
    have hc := hl c (List.mem_cons_self _ _)
    have h1 : ¬ c = 0x22 := hc.2.1
    have h2 : ¬ c = 0x5C := hc.2.2
    have h3 : ¬ c < 0x20 := by omega
    simp only [jsonCharsOk, h1, h2, h3, if_false]
    exact ih (fun d hd => hl d (List.mem_cons_of_mem _ hd))


set_option maxRecDepth 100000 in
theorem jsonCharsOk_jsEscapeASCII :
    ∀ c, c < 0x80 → jsIsSpecial c = true → c ≠ 0x27 →
      jsonCharsOk .plain (jsEscapeASCII c) = true := by
  decide

theorem jsIsSpecial_false (c : Nat) (h : jsIsSpecial c = false) :
    0x20 ≤ c ∧ c < 0x80 ∧ c ≠ 0x22 ∧ c ≠ 0x5C := by
  simp only [jsIsSpecial, RuneSelf] at h
  split_ifs at h with h1
  simp only [decide_eq_false_iff_not, not_or, not_lt, not_le] at h
  omega

theorem DecodeRune_ascii (c : Nat) (rest : GoString) (hc : c < 0x80) :
    DecodeRune (c :: rest) = (c, 1) := by
  simp [DecodeRune, first, hc]

theorem first_cases (c : Nat) (hc : 0x80 ≤ c) :
    first c = 0xF1 ∨ (first c = 0x02 ∧ 0xC2 ≤ c ∧ c ≤ 0xDF) ∨ (first c = 0x13 ∧ c = 0xE0) ∨
    (first c = 0x03 ∧ 0xE1 ≤ c ∧ c ≤ 0xEF) ∨ (first c = 0x23 ∧ c = 0xED) ∨
    (first c = 0x34 ∧ c = 0xF0) ∨ (first c = 0x04 ∧ 0xF1 ≤ c ∧ c ≤ 0xF3) ∨
    (first c = 0x44 ∧ c = 0xF4) := by
  simp only [first]
  split_ifs
  all_goals simp only [Nat.reduceEqDiff, false_and, true_and, false_or, or_false, true_or, or_true]
  all_goals first | trivial | omega

theorem mem_take_cons (c : Nat) (rest : GoString) (k b : Nat) (hk : k ≤ 4)
    (hb : b ∈ (c :: rest).take k) :
    b = c ∨ (2 ≤ k ∧ b = rest.getD 0 0) ∨ (3 ≤ k ∧ b = rest.getD 1 0) ∨
      (4 ≤ k ∧ b = rest.getD 2 0) := by
  interval_cases k <;>
    rcases rest with _ | ⟨b1, _ | ⟨b2, _ | ⟨b3, rest⟩⟩⟩ <;>
    simp at hb ⊢ <;> tauto

theorem DecodeRune_high (c : Nat) (rest : GoString) (hc : 0x80 ≤ c) :
    0x80 ≤ (DecodeRune (c :: rest)).1 ∧
    ∀ b ∈ slice (c :: rest) 0 (DecodeRune (c :: rest)).2, 0x80 ≤ b := by
  have hmem : ∀ k b, k ≤ 4 → b ∈ slice (c :: rest) 0 k →
      b = c ∨ (2 ≤ k ∧ b = rest.getD 0 0) ∨ (3 ≤ k ∧ b = rest.getD 1 0) ∨
        (4 ≤ k ∧ b = rest.getD 2 0) := by
    intro k b hk hb
    exact mem_take_cons c rest k b hk (by simpa [slice] using hb)
  rcases first_cases c hc with hx | ⟨hx, h1, h2⟩ | ⟨hx, h1⟩ | ⟨hx, h1, h2⟩ | ⟨hx, h1⟩ |
      ⟨hx, h1⟩ | ⟨hx, h1, h2⟩ | ⟨hx, h1⟩
  · simp only [DecodeRune, hx, RuneError]
    refine ⟨by norm_num, fun b hb => ?_⟩
    have hb2 := hmem 1 b (by norm_num) (by simpa using hb)
    omega
  all_goals
    simp only [DecodeRune, hx, acceptRanges, RuneError]
    generalize rest.getD 0 0 = b1 at hmem ⊢
    generalize rest.getD 1 0 = b2 at hmem ⊢
    generalize rest.getD 2 0 = b3 at hmem ⊢
    norm_num
    split_ifs
    all_goals
      refine ⟨?_, fun b hb => ?_⟩
      · simp only []
        omega
      · have hb2 := hmem _ b (by norm_num) hb
        omega


theorem hex_getD_digit : ∀ n, n < 16 →
    ((0x30 ≤ hex.getD n 0 ∧ hex.getD n 0 ≤ 0x39) ∨ (0x41 ≤ hex.getD n 0 ∧ hex.getD n 0 ≤ 0x46)) := by
  decide

theorem fmtHexDigits_digit (fuel : Nat) :
    ∀ n, ∀ b ∈ fmtHexDigits fuel n, (0x30 ≤ b ∧ b ≤ 0x39) ∨ (0x41 ≤ b ∧ b ≤ 0x46) := by
  induction fuel with
  | zero => intro n b hb; simp [fmtHexDigits] at hb
  | succ fuel ih =>
    intro n b hb
    simp only [fmtHexDigits] at hb
    split_ifs at hb with hn
    · rw [List.mem_singleton] at hb
      rw [hb]
      exact hex_getD_digit n hn
    · rw [List.mem_append, List.mem_singleton] at hb
      rcases hb with hb | hb
      · exact ih _ b hb
      · rw [hb]
        exact hex_getD_digit _ (Nat.mod_lt _ (by norm_num))

theorem fmt04X_digit (r : Nat) :
    (∀ b ∈ fmt04X r, (0x30 ≤ b ∧ b ≤ 0x39) ∨ (0x41 ≤ b ∧ b ≤ 0x46)) ∧ 4 ≤ (fmt04X r).length := by
  constructor
  · intro b hb
    simp only [fmt04X, List.mem_append, List.mem_replicate] at hb
    rcases hb with ⟨_, hb⟩ | hb
    · omega
    · exact fmtHexDigits_digit _ _ b hb
  · simp only [fmt04X, List.length_append, List.length_replicate]
    omega

theorem jsonCharsOk_unicode (l : GoString) :
    ∀ left acc, 1 ≤ left → left ≤ l.length →
      (∀ b ∈ l, (0x30 ≤ b ∧ b ≤ 0x39) ∨ (0x41 ≤ b ∧ b ≤ 0x46)) →
      jsonCharsOk (.unicode left acc) l = true := by
  induction l with
  | nil => intro left acc h1 h2; simp at h2; omega
  | cons c rest ih =>
    intro left acc h1 h2 hl
    have hc := hl c (List.mem_cons_self _ _)
    have hrest : ∀ b ∈ rest, (0x30 ≤ b ∧ b ≤ 0x39) ∨ (0x41 ≤ b ∧ b ≤ 0x46) :=
      fun b hb => hl b (List.mem_cons_of_mem _ hb)
    obtain ⟨v, hv⟩ : ∃ v, jsonHexVal c = some v := by
      simp only [jsonHexVal]
      split_ifs
      · exact ⟨_, rfl⟩
      · exact ⟨_, rfl⟩
      · exact ⟨_, rfl⟩
      · omega
    simp only [jsonCharsOk, hv]
    split_ifs with hle
    · exact jsonCharsOk_raw rest (fun b hb => by have := hrest b hb; omega)
    · simp only [List.length_cons] at h2
      exact ih _ _ (by omega) (by omega) hrest

theorem jsonCharsOk_uEscape (r : Nat) : jsonCharsOk .plain (lit "\\u" ++ fmt04X r) = true := by
  have e : lit "\\u" = [0x5C, 0x75] := by decide
  rw [e]
  simp only [List.cons_append, List.nil_append, jsonCharsOk]
  norm_num
  exact jsonCharsOk_unicode _ 4 0 (by norm_num) (fmt04X_digit r).2 (fmt04X_digit r).1

theorem jsonCharsOk_jsEscapeLoop (isPrint : Nat → Bool) (b : GoString) :
    ∀ skip, 0x27 ∉ b → jsonCharsOk .plain (jsEscapeLoop isPrint skip b) = true := by
  induction b with
  | nil => intro skip _; cases skip <;> rfl
  | cons c rest ih =>
    intro skip hq
    have hc : c ≠ 0x27 := fun e => hq (by simp [e])
    have hrest : 0x27 ∉ rest := fun hm => hq (List.mem_cons_of_mem _ hm)
    cases skip with
    | succ skip =>
      simp only [jsEscapeLoop]
      exact ih skip hrest
    | zero =>
      simp only [jsEscapeLoop]
      by_cases hs : jsIsSpecial c = true
      · simp only [hs, Bool.not_true, Bool.false_eq_true, if_false]
        by_cases hlt : c < RuneSelf
        · simp only [hlt, if_true]
          exact jsonCharsOk_append _ _ (ih 0 hrest) _
            (jsonCharsOk_jsEscapeASCII c hlt hs hc)
        · simp only [hlt, if_false]
          have hhigh := DecodeRune_high c rest (by simpa [RuneSelf] using hlt)
          refine jsonCharsOk_append _ _ (ih _ hrest) _ ?_
          split_ifs
          · exact jsonCharsOk_raw _ (fun d hd => by have := hhigh.2 d hd; omega)
          · exact jsonCharsOk_uEscape _
      · have hs2 : jsIsSpecial c = false := by simpa using hs
        have hraw := jsIsSpecial_false c hs2
        simp only [hs2, Bool.not_false, if_true]
        exact jsonCharsOk_append [c] _ (ih 0 hrest) _
          (jsonCharsOk_raw [c] (fun d hd => by
            rw [List.mem_singleton] at hd
            rw [hd]
            exact ⟨hraw.1, hraw.2.2.1, hraw.2.2.2⟩))

theorem indexFuncLoop_special_neg (s : GoString) :
    ∀ i : Nat, indexFuncLoop jsIsSpecial true i 0 s < 0 → ∀ c ∈ s, jsIsSpecial c = false := by
  induction s with
  | nil => intro i _ c hc; simp at hc
  | cons c rest ih =>
    intro i h d hd
    simp only [indexFuncLoop] at h
    by_cases hlt : c < 0x80
    · rw [DecodeRune_ascii c rest hlt] at h
      simp only [] at h
      split_ifs at h with hs
      · omega
      · have hs2 : jsIsSpecial c = false := by simpa using hs
        rcases List.mem_cons.1 hd with e | hm
        · rw [e]; exact hs2
        · exact ih (i + 1) h d hm
    · have hhigh := (DecodeRune_high c rest (by omega)).1
      have hsp : jsIsSpecial (DecodeRune (c :: rest)).1 = true := by
        simp only [jsIsSpecial, RuneSelf]
        split_ifs
        · rfl
        · simp only [decide_eq_true_eq]
          right
          exact hhigh
      simp only [hsp, if_true] at h
      omega

theorem jsonCharsOk_JSEscapeString (isPrint : Nat → Bool) (v : GoString) (hq : 0x27 ∉ v) :
    jsonCharsOk .plain (JSEscapeString isPrint v) = true := by
  simp only [JSEscapeString]
  split_ifs with hfast
  · have hall := indexFuncLoop_special_neg v 0 hfast
    exact jsonCharsOk_raw v (fun c hc => by
      have := jsIsSpecial_false c (hall c hc)
      exact ⟨this.1, this.2.2.1, this.2.2.2⟩)
  · exact jsonCharsOk_jsEscapeLoop isPrint v 0 hq

/-- The extent of the defect in the upstream body: for every value without
the single-quote byte, in every world, the body that updateRecord builds is
accepted by `isContentObject` as a JSON object with the one string member
`content` (the recogniser does not check the UTF-8 of unescaped bytes). -/
theorem reqBodyText_json_of_no_single_quote (env : Env) (value : GoString)
    (hq : 0x27 ∉ value) : isContentObject (reqBodyText env value) = true := by
  have hok := jsonCharsOk_JSEscapeString env.IsPrint value hq
  have hscan := jsonScanString_of_charsOk _ .plain (lit "\"\x7d") hok
  have e1 : lit "\x7b\"content\":\"" = [123, 34, 99, 111, 110, 116, 101, 110, 116, 34, 58, 34] := by
    decide
  have e2 : lit "\"\x7d" = [34, 125] := by decide
  have e3 : lit "content" = [99, 111, 110, 116, 101, 110, 116] := by decide
  rw [e2] at hscan
  cases hsc : jsonScanString .plain (JSEscapeString env.IsPrint value ++ [34, 125]) with
  | none =>
    rw [hsc] at hscan
    simp [jsonScanString] at hscan
  | some p =>
    rw [hsc] at hscan
    simp [jsonScanString] at hscan
    simp [reqBodyText, e1, e2, e3, isContentObject, jsonSkipWs, jsonIsWs, jsonExpect, jsonString,
      jsonScanString, jsonSimpleEscape, hsc, hscan]

/-! ## Lemmas on `updateRecord` -/

theorem updateRecord_of_parse_error (env : Env) (h : updateHandler) (w : ResponseWriter)
    (r : Request) (zoneID recordID value err : GoString)
    (hu : env.urlParse (upstreamURL zoneID recordID) = .error err) :
    updateRecord env h w r zoneID recordID value =
      { w := Error w (lit "cannot connect to upstream server") 502
        sent := []
        log := [lit "cannot connect to upstream server: " ++ err ++ [0x0A]] } := by
  simp [updateRecord, NewRequestWithContext, hu]

theorem updateRecord_of_do_error (env : Env) (h : updateHandler) (w : ResponseWriter)
    (r : Request) (zoneID recordID value err : GoString)
    (hu : env.urlParse (upstreamURL zoneID recordID) = .ok ())
    (hd : env.Do (upstreamRequest env h zoneID recordID value) = .error err) :
    updateRecord env h w r zoneID recordID value =
      { w := Error w (lit "cannot connect to upstream server") 502
        sent := [upstreamRequest env h zoneID recordID value]
        log := [lit "cannot connect to upstream server: " ++ err ++ [0x0A]] } := by
  simp only [upstreamRequest] at hd
  simp [updateRecord, NewRequestWithContext, hu, hd, upstreamRequest]

theorem updateRecord_sent_of_parse_ok (env : Env) (h : updateHandler) (w : ResponseWriter)
    (r : Request) (zoneID recordID value : GoString)
    (hu : env.urlParse (upstreamURL zoneID recordID) = .ok ()) :
    (updateRecord env h w r zoneID recordID value).sent =
      [upstreamRequest env h zoneID recordID value] := by
  simp only [updateRecord, NewRequestWithContext, hu, upstreamRequest]
  cases env.Do _ with
  | error err => rfl
  | ok resp =>
    simp only []
    split_ifs <;> rfl

theorem updateRecord_response_fields (env : Env) (h : updateHandler) (w : ResponseWriter)
    (r : Request) (zoneID recordID value : GoString) (resp : Response)
    (hw : w.wroteHeader = none)
    (hu : env.urlParse (upstreamURL zoneID recordID) = .ok ())
    (hd : env.Do (upstreamRequest env h zoneID recordID value) = .ok resp)
    (hlo : 100 ≤ resp.StatusCode) (hhi : resp.StatusCode ≤ 999) :
    (updateRecord env h w r zoneID recordID value).w.status = some resp.StatusCode ∧
    (updateRecord env h w r zoneID recordID value).w.body = w.body ++ resp.Body ∧
    (updateRecord env h w r zoneID recordID value).w.sentHeader =
      some (updateRecord env h w r zoneID recordID value).w.header ∧
    (updateRecord env h w r zoneID recordID value).w.header.values (lit "Content-Length") =
      (if resp.Header.Get (lit "Content-Length") ≠ lit "" then
        some [resp.Header.Get (lit "Content-Length")]
       else w.header.values (lit "Content-Length")) ∧
    (updateRecord env h w r zoneID recordID value).w.header.values (lit "Content-Type") =
      (if resp.Header.Get (lit "Content-Type") ≠ lit "" then
        some [resp.Header.Get (lit "Content-Type")]
       else w.header.values (lit "Content-Type")) ∧
    (∀ k : GoString, k ≠ lit "Content-Length" → k ≠ lit "Content-Type" →
      (updateRecord env h w r zoneID recordID value).w.header.values k = w.header.values k) := by
  simp only [upstreamRequest] at hd
  have hne : lit "Content-Length" ≠ lit "Content-Type" := by decide
  have hlit : lit "" = ([] : GoString) := rfl
  have hv := invalidWriteHeaderCode_of_valid resp.StatusCode hlo hhi
  simp only [updateRecord, NewRequestWithContext, hu, hd, hlit,
    WriteHeaderPanics_of_valid _ resp.StatusCode hlo hhi]
  by_cases hcl : resp.Header.Get (lit "Content-Length") = [] <;>
    by_cases hct : resp.Header.Get (lit "Content-Type") = []
  all_goals
    simp only [hcl, hct, ne_eq, not_true_eq_false, not_false_eq_true, if_true, if_false,
      Bool.false_eq_true]
    refine ⟨?_, ?_, ?_, ?_, ?_, ?_⟩
    · simp [ResponseWriter.status, Copy_body, ResponseWriter.WriteHeader, hw, hv]
    · simp [Copy_body, ResponseWriter.WriteHeader, hw, hv]
    · simp [ResponseWriter.sentHeader, Copy_body, ResponseWriter.WriteHeader, hw, hv]
    · simp [Copy_body, ResponseWriter.WriteHeader, hw, hv, Header.values_Set_self,
        Header.values_Set_of_ne _ _ _ _ hne]
    · simp [Copy_body, ResponseWriter.WriteHeader, hw, hv, Header.values_Set_self,
        Header.values_Set_of_ne _ _ _ _ hne.symm]
    · intro k hk1 hk2
      simp [Copy_body, ResponseWriter.WriteHeader, hw, hv,
        Header.values_Set_of_ne _ _ _ _ hk1, Header.values_Set_of_ne _ _ _ _ hk2]

theorem updateRecord_response_panics (env : Env) (h : updateHandler) (w : ResponseWriter)
    (r : Request) (zoneID recordID value : GoString) (resp : Response)
    (hw : w.wroteHeader = none)
    (hu : env.urlParse (upstreamURL zoneID recordID) = .ok ())
    (hd : env.Do (upstreamRequest env h zoneID recordID value) = .ok resp)
    (hbad : resp.StatusCode < 100 ∨ 999 < resp.StatusCode) :
    (updateRecord env h w r zoneID recordID value).w.panicked = some resp.StatusCode ∧
    (updateRecord env h w r zoneID recordID value).w.wroteHeader = none ∧
    (updateRecord env h w r zoneID recordID value).w.body = w.body ∧
    (∀ k : GoString, k ≠ lit "Content-Length" → k ≠ lit "Content-Type" →
      (updateRecord env h w r zoneID recordID value).w.header.values k = w.header.values k) := by
  simp only [upstreamRequest] at hd
  have hv : invalidWriteHeaderCode resp.StatusCode = true := by
    simp only [invalidWriteHeaderCode, decide_eq_true_eq]
    omega
  simp only [updateRecord, NewRequestWithContext, hu, hd]
  by_cases hcl : resp.Header.Get (lit "Content-Length") = [] <;>
    by_cases hct : resp.Header.Get (lit "Content-Type") = []
  all_goals
    simp only [hcl, hct, ne_eq, not_true_eq_false, not_false_eq_true, if_true, if_false,
      ResponseWriter.WriteHeaderPanics, hw, hv, Option.isNone_none, Bool.and_self]
    refine ⟨?_, ?_, ?_, ?_⟩
    · simp [ResponseWriter.WriteHeader, hw, hv]
    · simp [ResponseWriter.WriteHeader, hw, hv]
    · simp [ResponseWriter.WriteHeader, hw, hv]
    · intro k hk1 hk2
      simp [ResponseWriter.WriteHeader, hw, hv,
        Header.values_Set_of_ne _ _ _ _ hk1, Header.values_Set_of_ne _ _ _ _ hk2]

theorem updateRecord_keeps_header (env : Env) (h : updateHandler) (w : ResponseWriter)
    (r : Request) (zoneID recordID value k : GoString) (hw : w.wroteHeader = none)
    (h1 : k ≠ lit "Content-Length") (h2 : k ≠ lit "Content-Type")
    (h3 : k ≠ lit "X-Content-Type-Options") :
    (updateRecord env h w r zoneID recordID value).w.header.values k = w.header.values k ∧
    ((∃ code, (updateRecord env h w r zoneID recordID value).w.wroteHeader =
        some (code, (updateRecord env h w r zoneID recordID value).w.header)) ∨
      (∃ resp, env.Do (upstreamRequest env h zoneID recordID value) = .ok resp ∧
        (resp.StatusCode < 100 ∨ 999 < resp.StatusCode) ∧
        (updateRecord env h w r zoneID recordID value).w.panicked = some resp.StatusCode ∧
        (updateRecord env h w r zoneID recordID value).w.wroteHeader = none ∧
        (updateRecord env h w r zoneID recordID value).w.body = w.body)) := by
  cases hu : env.urlParse (upstreamURL zoneID recordID) with
  | error err =>
    rw [updateRecord_of_parse_error env h w r zoneID recordID value err hu]
    exact ⟨Error_header_values w _ _ k h1 h2 h3,
      Or.inl ⟨502, Error_wroteHeader w _ _ hw (by norm_num) (by norm_num)⟩⟩
  | ok u =>
    cases hd : env.Do (upstreamRequest env h zoneID recordID value) with
    | error err =>
      rw [updateRecord_of_do_error env h w r zoneID recordID value err hu hd]
      exact ⟨Error_header_values w _ _ k h1 h2 h3,
        Or.inl ⟨502, Error_wroteHeader w _ _ hw (by norm_num) (by norm_num)⟩⟩
    | ok resp =>
      by_cases hbad : resp.StatusCode < 100 ∨ 999 < resp.StatusCode
      · have hp := updateRecord_response_panics env h w r zoneID recordID value resp hw hu hd hbad
        exact ⟨hp.2.2.2 k h1 h2, Or.inr ⟨resp, rfl, hbad, hp.1, hp.2.1, hp.2.2.1⟩⟩
      · have hr := updateRecord_response_fields env h w r zoneID recordID value resp hw hu hd
          (by omega) (by omega)
        refine ⟨hr.2.2.2.2.2 k h1 h2, Or.inl ⟨resp.StatusCode, ?_⟩⟩
        have hs := hr.1
        have hh := hr.2.2.1
        simp only [ResponseWriter.status, ResponseWriter.sentHeader] at hs hh
        cases hwh : (updateRecord env h w r zoneID recordID value).w.wroteHeader with
        | none => rw [hwh] at hs; cases hs
        | some p =>
          rw [hwh] at hs hh
          simp only [Option.map_some', Option.some.injEq] at hs hh
          rw [← hs, ← hh]

/-! ## The claims -/

/-- C1, where the code fails it: for the POST body `'` (a single quote)
the handler sends the upstream body `{"content":"\'"}`, in which `\'` is no
JSON escape, so the body is not a JSON text; the same holds in every
world, since the escape of an ASCII byte consults no table. -/
theorem reqBodyText_single_quote_not_json :
    (ServeHTTP exampleEnv exampleHandler ResponseWriter.fresh
        { Method := lit "POST", Body := .ok (lit "'") }).sent.map ClientRequest.Body =
      [lit "\x7b\"content\":\"\\'\"\x7d"] ∧
    isContentObject (lit "\x7b\"content\":\"\\'\"\x7d") = false ∧
    (∀ env : Env, reqBodyText env (lit "'") = lit "\x7b\"content\":\"\\'\"\x7d") ∧
    (∀ env : Env, isContentObject (reqBodyText env (lit "'")) = false) := by
  refine ⟨by decide, by decide, fun env => rfl, fun env => rfl⟩

/-- C2: for every configuration whose record_a and record_aaaa are both
non-empty and every POST request whose body is read successfully, ServeHTTP
treats the whitespace-trimmed body as IPv4 exactly when it contains no `:`
and as IPv6 exactly when it contains one, valid address or not: without a
`:` the call is updateRecord (zone, record_a, trimmed body), with a `:` it
is updateRecord (zone, record_aaaa, trimmed body), on the writer that
carries the Server header. -/
theorem serveHTTP_classifies_by_colon (env : Env) (h : updateHandler) (w : ResponseWriter)
    (r : Request) (body : GoString)
    (ha : h.Config.RecordA ≠ lit "") (haaaa : h.Config.RecordAAAA ≠ lit "")
    (hm : r.Method = lit "POST") (hb : r.Body = .ok body) :
    (0x3A ∉ TrimSpace body →
      ServeHTTP env h w r =
        updateRecord env h { w with header := w.header.Set (lit "Server") serverValue } r
          h.Config.Zone h.Config.RecordA (TrimSpace body)) ∧
    (0x3A ∈ TrimSpace body →
      ServeHTTP env h w r =
        updateRecord env h { w with header := w.header.Set (lit "Server") serverValue } r
          h.Config.Zone h.Config.RecordAAAA (TrimSpace body)) := by
  constructor
  · intro hc
    have hi : IndexByte (TrimSpace body) 0x3A = -1 := (IndexByte_eq_neg_one_iff _ _).2 hc
    simp [ServeHTTP, hm, hb, hi, ha]
  · intro hc
    have hi : ¬ IndexByte (TrimSpace body) 0x3A = -1 :=
      fun e => (IndexByte_eq_neg_one_iff _ _).1 e hc
    simp [ServeHTTP, hm, hb, hi, haaaa]

/-- Witness of C2: with both records configured, `1.2.3.4` goes to the
IPv4 record and `::1` to the IPv6 record. -/
theorem serveHTTP_classifies_by_colon_witness :
    ServeHTTP exampleEnv exampleHandlerDual ResponseWriter.fresh examplePost =
      updateRecord exampleEnv exampleHandlerDual
        { ResponseWriter.fresh with
          header := ResponseWriter.fresh.header.Set (lit "Server") serverValue }
        examplePost (lit "Z") (lit "R") (lit "1.2.3.4") ∧
    ServeHTTP exampleEnv exampleHandlerDual ResponseWriter.fresh examplePostV6 =
      updateRecord exampleEnv exampleHandlerDual
        { ResponseWriter.fresh with
          header := ResponseWriter.fresh.header.Set (lit "Server") serverValue }
        examplePostV6 (lit "Z") (lit "R6") (lit "::1") :=
  ⟨(serveHTTP_classifies_by_colon exampleEnv exampleHandlerDual ResponseWriter.fresh
      examplePost (lit "1.2.3.4") (by decide) (by decide) (by decide) (by rfl)).1 (by decide),
   (serveHTTP_classifies_by_colon exampleEnv exampleHandlerDual ResponseWriter.fresh
      examplePostV6 (lit "::1\n") (by decide) (by decide) (by decide) (by rfl)).2 (by decide)⟩

/-- C3: for every configuration with zone Z, non-empty record_a R and
token T, and every POST body whose trimmed text v contains no `:`, the
handler hands exactly one request to the upstream client (provided
`url.Parse` accepts the URL): method PATCH, URL
`https://api.cloudflare.com/client/v4/zones/` + PathEscape(Z) +
`/dns_records/` + PathEscape(R), header Authorization equal to `Bearer ` +
T, header Content-Type equal to `application/json`, and the body
`{"content":"` + JSEscapeString(v) + `"}`.  In particular, when Z and R
need no escaping and the body is `1.2.3.4`, the request is a PATCH to
`https://api.cloudflare.com/client/v4/zones/Z/dns_records/R` with
`Authorization: Bearer T` and body exactly `{"content":"1.2.3.4"}`. -/
theorem serveHTTP_ipv4_upstream_request (env : Env) (h : updateHandler) (w : ResponseWriter)
    (r : Request) (body : GoString)
    (ha : h.Config.RecordA ≠ lit "") (hm : r.Method = lit "POST") (hb : r.Body = .ok body)
    (hu : env.urlParse (upstreamURL h.Config.Zone h.Config.RecordA) = .ok ()) :
    (0x3A ∉ TrimSpace body →
      ∃ req, (ServeHTTP env h w r).sent = [req] ∧
        req.Method = lit "PATCH" ∧
        req.URL = lit "https://api.cloudflare.com/client/v4/zones/" ++
          PathEscape h.Config.Zone ++ lit "/dns_records/" ++ PathEscape h.Config.RecordA ∧
        req.Header.Get (lit "Authorization") = lit "Bearer " ++ h.Config.Token ∧
        req.Header.Get (lit "Content-Type") = lit "application/json" ∧
        req.Body = lit "\x7b\"content\":\"" ++ JSEscapeString env.IsPrint (TrimSpace body) ++
          lit "\"\x7d") ∧
    (body = lit "1.2.3.4" → (∀ c ∈ h.Config.Zone, shouldEscape c = false) →
      (∀ c ∈ h.Config.RecordA, shouldEscape c = false) →
      ∃ req, (ServeHTTP env h w r).sent = [req] ∧
        req.Method = lit "PATCH" ∧
        req.URL = lit "https://api.cloudflare.com" ++ (lit "/client/v4/zones/" ++
          h.Config.Zone ++ lit "/dns_records/" ++ h.Config.RecordA) ∧
        req.Header.Get (lit "Authorization") = lit "Bearer " ++ h.Config.Token ∧
        req.Header.Get (lit "Content-Type") = lit "application/json" ∧
        req.Body = lit "\x7b\"content\":\"1.2.3.4\"\x7d") := by
  have hsent : 0x3A ∉ TrimSpace body → (ServeHTTP env h w r).sent =
      [upstreamRequest env h h.Config.Zone h.Config.RecordA (TrimSpace body)] := by
    intro hc
    have hi : IndexByte (TrimSpace body) 0x3A = -1 := (IndexByte_eq_neg_one_iff _ _).2 hc
    have e : ServeHTTP env h w r =
        updateRecord env h { w with header := w.header.Set (lit "Server") serverValue } r
          h.Config.Zone h.Config.RecordA (TrimSpace body) := by
      simp [ServeHTTP, hm, hb, hi, ha]
    rw [e]
    exact updateRecord_sent_of_parse_ok env h _ r _ _ _ hu
  have hauth : (upstreamRequest env h h.Config.Zone h.Config.RecordA
      (TrimSpace body)).Header.Get (lit "Authorization") = lit "Bearer " ++ h.Config.Token := by
    have hne : lit "Authorization" ≠ lit "Content-Type" := by decide
    simp only [upstreamRequest, Header.Get, Header.values_Set_of_ne _ _ _ _ hne,
      Header.values_Set_self]
  have hct : (upstreamRequest env h h.Config.Zone h.Config.RecordA
      (TrimSpace body)).Header.Get (lit "Content-Type") = lit "application/json" := by
    simp only [upstreamRequest, Header.Get_Set_self]
  constructor
  · intro hc
    exact ⟨_, hsent hc, rfl, rfl, hauth, hct, rfl⟩
  · intro hbody hz hr
    have htrim : TrimSpace body = lit "1.2.3.4" := by rw [hbody]; decide
    have hc : 0x3A ∉ TrimSpace body := by rw [htrim]; decide
    refine ⟨_, hsent hc, rfl, ?_, hauth, hct, ?_⟩
    · simp only [upstreamRequest, upstreamURL, PathEscape_of_unreserved _ hz,
        PathEscape_of_unreserved _ hr]
      have e1 : lit "https://api.cloudflare.com/client/v4/zones/" =
          lit "https://api.cloudflare.com" ++ lit "/client/v4/zones/" := by decide
      rw [e1]
      simp only [List.append_assoc]
    · simp only [upstreamRequest, htrim]
      rfl

/-- Witness of C3: zone `Z`, record `R`, token `T` and the POST body
`1.2.3.4`. -/
theorem serveHTTP_ipv4_upstream_request_witness :
    ∃ req, (ServeHTTP exampleEnv exampleHandler ResponseWriter.fresh examplePost).sent = [req] ∧
      req.Method = lit "PATCH" ∧
      req.URL = lit "https://api.cloudflare.com" ++ (lit "/client/v4/zones/" ++
        lit "Z" ++ lit "/dns_records/" ++ lit "R") ∧
      req.Header.Get (lit "Authorization") = lit "Bearer " ++ lit "T" ∧
      req.Header.Get (lit "Content-Type") = lit "application/json" ∧
      req.Body = lit "\x7b\"content\":\"1.2.3.4\"\x7d" :=
  (serveHTTP_ipv4_upstream_request exampleEnv exampleHandler ResponseWriter.fresh examplePost
    (lit "1.2.3.4") (by decide) (by decide) rfl rfl).2 rfl (by decide) (by decide)

/-- C4, as the code refutes it: with no IPv4 record configured, the POST
body `1.2.3.4` is answered with status 400, but the response body is the
message followed by a line feed, not the message alone. -/
theorem serveHTTP_ipv4_disabled_body_has_newline :
    exampleHandlerV6.Config.RecordA = lit "" ∧
    0x3A ∉ TrimSpace (lit "1.2.3.4") ∧
    (ServeHTTP exampleEnv exampleHandlerV6 ResponseWriter.fresh examplePost).w.status = some 400 ∧
    (ServeHTTP exampleEnv exampleHandlerV6 ResponseWriter.fresh examplePost).w.body =
      lit "IPv4 address support is not enabled\n" ∧
    (ServeHTTP exampleEnv exampleHandlerV6 ResponseWriter.fresh examplePost).w.body ≠
      lit "IPv4 address support is not enabled" := by
  decide

/-- C4, amended: for every configuration and every POST request whose body
is read successfully: if the trimmed body contains no `:` and record_a is
empty, the response status is 400 and the response body is
`IPv4 address support is not enabled` followed by one line feed; if the
trimmed body contains a `:` and record_aaaa is empty, the status is 400 and
the body is `IPv6 address support is not enabled` followed by one line
feed.  In both cases no upstream request is made and the outcome is the
same for every configuration with that record empty, whatever the other
record. -/
theorem serveHTTP_family_not_enabled (env : Env) (h : updateHandler) (r : Request)
    (body : GoString) (hm : r.Method = lit "POST") (hb : r.Body = .ok body) :
    (0x3A ∉ TrimSpace body → h.Config.RecordA = lit "" →
      (ServeHTTP env h ResponseWriter.fresh r).w.status = some 400 ∧
      (ServeHTTP env h ResponseWriter.fresh r).w.body =
        lit "IPv4 address support is not enabled\n" ∧
      (ServeHTTP env h ResponseWriter.fresh r).sent = [] ∧
      (∀ h2 : updateHandler, h2.Config.RecordA = lit "" →
        ServeHTTP env h2 ResponseWriter.fresh r = ServeHTTP env h ResponseWriter.fresh r)) ∧
    (0x3A ∈ TrimSpace body → h.Config.RecordAAAA = lit "" →
      (ServeHTTP env h ResponseWriter.fresh r).w.status = some 400 ∧
      (ServeHTTP env h ResponseWriter.fresh r).w.body =
        lit "IPv6 address support is not enabled\n" ∧
      (ServeHTTP env h ResponseWriter.fresh r).sent = [] ∧
      (∀ h2 : updateHandler, h2.Config.RecordAAAA = lit "" →
        ServeHTTP env h2 ResponseWriter.fresh r = ServeHTTP env h ResponseWriter.fresh r)) := by
  constructor
  · intro hc ha
    have hi : IndexByte (TrimSpace body) 0x3A = -1 := (IndexByte_eq_neg_one_iff _ _).2 hc
    have key : ∀ g : updateHandler, g.Config.RecordA = lit "" →
        ServeHTTP env g ResponseWriter.fresh r =
          { w := Error { ResponseWriter.fresh with
                  header := ResponseWriter.fresh.header.Set (lit "Server") serverValue }
                (lit "IPv4 address support is not enabled") 400
            sent := []
            log := [lit "IPv4 address support is not enabled" ++ [0x0A]] } := by
      intro g hg
      simp [ServeHTTP, hm, hb, hi, hg]
    refine ⟨?_, ?_, ?_, ?_⟩
    · rw [key h ha]; decide
    · rw [key h ha]; decide
    · rw [key h ha]
    · intro h2 ha2
      rw [key h ha, key h2 ha2]
  · intro hc ha
    have hi : ¬ IndexByte (TrimSpace body) 0x3A = -1 :=
      fun e => (IndexByte_eq_neg_one_iff _ _).1 e hc
    have key : ∀ g : updateHandler, g.Config.RecordAAAA = lit "" →
        ServeHTTP env g ResponseWriter.fresh r =
          { w := Error { ResponseWriter.fresh with
                  header := ResponseWriter.fresh.header.Set (lit "Server") serverValue }
                (lit "IPv6 address support is not enabled") 400
            sent := []
            log := [lit "IPv6 address support is not enabled" ++ [0x0A]] } := by
      intro g hg
      simp [ServeHTTP, hm, hb, hi, hg]
    refine ⟨?_, ?_, ?_, ?_⟩
    · rw [key h ha]; decide
    · rw [key h ha]; decide
    · rw [key h ha]
    · intro h2 ha2
      rw [key h ha, key h2 ha2]

/-- Witness of C4, amended: body `1.2.3.4` with no IPv4 record, and body
`::1` with no IPv6 record. -/
theorem serveHTTP_family_not_enabled_witness :
    ((ServeHTTP exampleEnv exampleHandlerV6 ResponseWriter.fresh examplePost).w.status = some 400 ∧
      (ServeHTTP exampleEnv exampleHandlerV6 ResponseWriter.fresh examplePost).w.body =
        lit "IPv4 address support is not enabled\n" ∧
      (ServeHTTP exampleEnv exampleHandlerV6 ResponseWriter.fresh examplePost).sent = []) ∧
    ((ServeHTTP exampleEnv exampleHandler ResponseWriter.fresh examplePostV6).w.status = some 400 ∧
      (ServeHTTP exampleEnv exampleHandler ResponseWriter.fresh examplePostV6).w.body =
        lit "IPv6 address support is not enabled\n" ∧
      (ServeHTTP exampleEnv exampleHandler ResponseWriter.fresh examplePostV6).sent = []) :=
  have h4 := (serveHTTP_family_not_enabled exampleEnv exampleHandlerV6 examplePost
    (lit "1.2.3.4") (by decide) (by rfl)).1 (by decide) (by decide)
  have h6 := (serveHTTP_family_not_enabled exampleEnv exampleHandler examplePostV6
    (lit "::1\n") (by decide) (by rfl)).2 (by decide) (by decide)
  ⟨⟨h4.1, h4.2.1, h4.2.2.1⟩, ⟨h6.1, h6.2.1, h6.2.2.1⟩⟩

/-- C5, as the code refutes it: a GET request is answered with status 405,
but the response body is one line-feed byte, not zero bytes. -/
theorem serveHTTP_get_body_not_empty :
    exampleGet.Method ≠ lit "POST" ∧
    (ServeHTTP exampleEnv exampleHandler ResponseWriter.fresh exampleGet).w.status = some 405 ∧
    (ServeHTTP exampleEnv exampleHandler ResponseWriter.fresh exampleGet).w.body = lit "\n" ∧
    (ServeHTTP exampleEnv exampleHandler ResponseWriter.fresh exampleGet).w.body ≠ lit "" := by
  decide

/-- C5, amended: for every request whose method is not POST, every
configuration and every request body, ServeHTTP answers a fresh writer with
status 405 and a body of exactly one line-feed byte (the empty message that
`http.Error` prints with a newline), makes no upstream request, and the
outcome is the same whatever the body, the configuration and the world. -/
theorem serveHTTP_method_not_allowed (env : Env) (h : updateHandler) (r : Request)
    (hm : r.Method ≠ lit "POST") :
    (ServeHTTP env h ResponseWriter.fresh r).w.status = some 405 ∧
    (ServeHTTP env h ResponseWriter.fresh r).w.body = lit "\n" ∧
    (ServeHTTP env h ResponseWriter.fresh r).sent = [] ∧
    (∀ (env2 : Env) (h2 : updateHandler) (r2 : Request), r2.Method ≠ lit "POST" →
      ServeHTTP env2 h2 ResponseWriter.fresh r2 = ServeHTTP env h ResponseWriter.fresh r) := by
  have key : ∀ (e : Env) (g : updateHandler) (q : Request), q.Method ≠ lit "POST" →
      ServeHTTP e g ResponseWriter.fresh q =
        { w := Error { ResponseWriter.fresh with
                header := ResponseWriter.fresh.header.Set (lit "Server") serverValue } (lit "") 405
          sent := [], log := [] } := by
    intro e g q hq
    simp [ServeHTTP, hq]
  refine ⟨?_, ?_, ?_, ?_⟩
  · rw [key env h r hm]; decide
  · rw [key env h r hm]; decide
  · rw [key env h r hm]
  · intro env2 h2 r2 hm2
    rw [key env h r hm, key env2 h2 r2 hm2]

/-- Witness of C5, amended: the GET request of the examples. -/
theorem serveHTTP_method_not_allowed_witness :
    (ServeHTTP exampleEnv exampleHandler ResponseWriter.fresh exampleGet).w.status = some 405 ∧
    (ServeHTTP exampleEnv exampleHandler ResponseWriter.fresh exampleGet).w.body = lit "\n" ∧
    (ServeHTTP exampleEnv exampleHandler ResponseWriter.fresh exampleGet).sent = [] :=
  have h := serveHTTP_method_not_allowed exampleEnv exampleHandler exampleGet (by decide)
  ⟨h.1, h.2.1, h.2.2.1⟩

/-- C6, as the code refutes it: when the upstream refuses the connection
the response status is 502, but the response body is the message followed
by a line feed, not the message alone. -/
theorem updateRecord_refused_body_has_newline :
    exampleEnvRefused.Do (upstreamRequest exampleEnvRefused exampleHandler (lit "Z") (lit "R")
      (lit "1.2.3.4")) = .error (lit "dial tcp: connection refused") ∧
    (updateRecord exampleEnvRefused exampleHandler ResponseWriter.fresh examplePost
      (lit "Z") (lit "R") (lit "1.2.3.4")).w.status = some 502 ∧
    (updateRecord exampleEnvRefused exampleHandler ResponseWriter.fresh examplePost
      (lit "Z") (lit "R") (lit "1.2.3.4")).w.body = lit "cannot connect to upstream server\n" ∧
    (updateRecord exampleEnvRefused exampleHandler ResponseWriter.fresh examplePost
      (lit "Z") (lit "R") (lit "1.2.3.4")).w.body ≠ lit "cannot connect to upstream server" :=
  ⟨rfl, by decide, by decide, by decide⟩

/-- C6, amended: for every request that reaches updateRecord with no
header written yet, if the upstream request cannot be constructed or the
upstream call returns an error, the response status is 502 and the bytes
written are `cannot connect to upstream server` followed by one line feed;
the writer ends as `http.Error` leaves it, so nothing of the upstream is
relayed, and at most one request has been handed to the client (none when
construction fails): the call is not retried. -/
theorem updateRecord_bad_gateway (env : Env) (h : updateHandler) (w : ResponseWriter)
    (r : Request) (zoneID recordID value : GoString)
    (hw : w.wroteHeader = none)
    (hfail : (∃ err, env.urlParse (upstreamURL zoneID recordID) = .error err) ∨
      (env.urlParse (upstreamURL zoneID recordID) = .ok () ∧
        ∃ err, env.Do (upstreamRequest env h zoneID recordID value) = .error err)) :
    (updateRecord env h w r zoneID recordID value).w.status = some 502 ∧
    (updateRecord env h w r zoneID recordID value).w.body =
      w.body ++ lit "cannot connect to upstream server\n" ∧
    (updateRecord env h w r zoneID recordID value).w =
      Error w (lit "cannot connect to upstream server") 502 ∧
    (updateRecord env h w r zoneID recordID value).sent.length ≤ 1 ∧
    ((∃ err, env.urlParse (upstreamURL zoneID recordID) = .error err) →
      (updateRecord env h w r zoneID recordID value).sent = []) := by
  have hb : (Error w (lit "cannot connect to upstream server") 502).body =
      w.body ++ lit "cannot connect to upstream server\n" := by
    rw [Error_body _ _ _ (by norm_num) (by norm_num), List.append_assoc]
    rfl
  have hst : (Error w (lit "cannot connect to upstream server") 502).status = some 502 :=
    Error_status w _ _ hw (by norm_num) (by norm_num)
  rcases hfail with ⟨err, he⟩ | ⟨hu, err, he⟩
  · rw [updateRecord_of_parse_error env h w r zoneID recordID value err he]
    exact ⟨hst, hb, rfl, by simp, fun _ => rfl⟩
  · rw [updateRecord_of_do_error env h w r zoneID recordID value err hu he]
    refine ⟨hst, hb, rfl, by simp, ?_⟩
    rintro ⟨e2, he2⟩
    rw [hu] at he2
    cases he2

/-- Witness of C6, amended: the upstream refuses the connection. -/
theorem updateRecord_bad_gateway_witness :
    (updateRecord exampleEnvRefused exampleHandler ResponseWriter.fresh examplePost
      (lit "Z") (lit "R") (lit "1.2.3.4")).w.status = some 502 ∧
    (updateRecord exampleEnvRefused exampleHandler ResponseWriter.fresh examplePost
      (lit "Z") (lit "R") (lit "1.2.3.4")).w.body = lit "cannot connect to upstream server\n" ∧
    (updateRecord exampleEnvRefused exampleHandler ResponseWriter.fresh examplePost
      (lit "Z") (lit "R") (lit "1.2.3.4")).sent.length ≤ 1 :=
  have hr := updateRecord_bad_gateway exampleEnvRefused exampleHandler ResponseWriter.fresh
    examplePost (lit "Z") (lit "R") (lit "1.2.3.4") rfl
    (Or.inr ⟨rfl, lit "dial tcp: connection refused", rfl⟩)
  ⟨hr.1, hr.2.1, hr.2.2.2.1⟩

/-- C7, as the code refutes it: when the upstream answers with the status
line `000` and the body `x`, the call `w.WriteHeader(0)` panics, so
updateRecord writes neither the status 0 nor the body to the caller. -/
theorem updateRecord_status_zero_not_relayed :
    exampleEnvZero.urlParse (upstreamURL (lit "Z") (lit "R")) = .ok () ∧
    exampleEnvZero.Do (upstreamRequest exampleEnvZero exampleHandler (lit "Z") (lit "R")
      (lit "1.2.3.4")) = .ok exampleResponseZero ∧
    (updateRecord exampleEnvZero exampleHandler ResponseWriter.fresh examplePost
      (lit "Z") (lit "R") (lit "1.2.3.4")).w.panicked = some 0 ∧
    (updateRecord exampleEnvZero exampleHandler ResponseWriter.fresh examplePost
      (lit "Z") (lit "R") (lit "1.2.3.4")).w.status = none ∧
    (updateRecord exampleEnvZero exampleHandler ResponseWriter.fresh examplePost
      (lit "Z") (lit "R") (lit "1.2.3.4")).w.status ≠ some exampleResponseZero.StatusCode ∧
    (updateRecord exampleEnvZero exampleHandler ResponseWriter.fresh examplePost
      (lit "Z") (lit "R") (lit "1.2.3.4")).w.body = lit "" ∧
    (updateRecord exampleEnvZero exampleHandler ResponseWriter.fresh examplePost
      (lit "Z") (lit "R") (lit "1.2.3.4")).w.body ≠
        ResponseWriter.fresh.body ++ exampleResponseZero.Body :=
  ⟨rfl, rfl, by decide, by decide, by decide, by decide, by decide⟩

/-- C7, amended: for every response that the upstream call returns with a
status code between 100 and 999 (any body bytes, any headers), updateRecord
writes that status and that body to the caller unchanged; the caller's
Content-Length (and likewise Content-Type) header is set to the upstream's
value exactly when that value is present and non-empty, and is left alone
otherwise; no other header of the caller changes, so no other upstream
header is copied. -/
theorem updateRecord_relays_response (env : Env) (h : updateHandler) (w : ResponseWriter)
    (r : Request) (zoneID recordID value : GoString) (resp : Response)
    (hw : w.wroteHeader = none)
    (hu : env.urlParse (upstreamURL zoneID recordID) = .ok ())
    (hd : env.Do (upstreamRequest env h zoneID recordID value) = .ok resp)
    (hlo : 100 ≤ resp.StatusCode) (hhi : resp.StatusCode ≤ 999) :
    (updateRecord env h w r zoneID recordID value).w.status = some resp.StatusCode ∧
    (updateRecord env h w r zoneID recordID value).w.body = w.body ++ resp.Body ∧
    (updateRecord env h w r zoneID recordID value).w.sentHeader =
      some (updateRecord env h w r zoneID recordID value).w.header ∧
    (updateRecord env h w r zoneID recordID value).w.header.values (lit "Content-Length") =
      (if resp.Header.Get (lit "Content-Length") ≠ lit "" then
        some [resp.Header.Get (lit "Content-Length")]
       else w.header.values (lit "Content-Length")) ∧
    (updateRecord env h w r zoneID recordID value).w.header.values (lit "Content-Type") =
      (if resp.Header.Get (lit "Content-Type") ≠ lit "" then
        some [resp.Header.Get (lit "Content-Type")]
       else w.header.values (lit "Content-Type")) ∧
    (∀ k : GoString, k ≠ lit "Content-Length" → k ≠ lit "Content-Type" →
      (updateRecord env h w r zoneID recordID value).w.header.values k = w.header.values k) :=
  updateRecord_response_fields env h w r zoneID recordID value resp hw hu hd hlo hhi

/-- Witness of C7: the upstream reply of the examples reaches the caller
with its status, body, content length and content type; its cookie and its
Server header do not. -/
theorem updateRecord_relays_response_witness :
    (updateRecord exampleEnv exampleHandler
      { ResponseWriter.fresh with
        header := ResponseWriter.fresh.header.Set (lit "Server") serverValue }
      examplePost (lit "Z") (lit "R") (lit "1.2.3.4")).w.status = some 200 ∧
    (updateRecord exampleEnv exampleHandler
      { ResponseWriter.fresh with
        header := ResponseWriter.fresh.header.Set (lit "Server") serverValue }
      examplePost (lit "Z") (lit "R") (lit "1.2.3.4")).w.body = lit "\x7b\"success\":true\x7d" ∧
    (updateRecord exampleEnv exampleHandler
      { ResponseWriter.fresh with
        header := ResponseWriter.fresh.header.Set (lit "Server") serverValue }
      examplePost (lit "Z") (lit "R") (lit "1.2.3.4")).w.header.values (lit "Content-Length") =
        some [lit "16"] ∧
    (updateRecord exampleEnv exampleHandler
      { ResponseWriter.fresh with
        header := ResponseWriter.fresh.header.Set (lit "Server") serverValue }
      examplePost (lit "Z") (lit "R") (lit "1.2.3.4")).w.header.values (lit "Set-Cookie") = none :=
  have hr := updateRecord_relays_response exampleEnv exampleHandler
    { ResponseWriter.fresh with
      header := ResponseWriter.fresh.header.Set (lit "Server") serverValue }
    examplePost (lit "Z") (lit "R") (lit "1.2.3.4") exampleResponse rfl rfl rfl
    (by decide) (by decide)
  ⟨hr.1, hr.2.1, hr.2.2.2.1, hr.2.2.2.2.2 (lit "Set-Cookie") (by decide) (by decide)⟩

/-- C8: for every configuration file that decodes successfully with no
unknown keys, parseConfig returns an error and no configuration if and only
if token is empty or zone is empty; otherwise it returns a configuration
and no error, and every configuration it returns has non-empty token and
zone, http_addr equal to the file's value or `:28275` when that is empty,
http_path equal to the file's value or `/update` when that is empty, and
token, zone, record_a and record_aaaa as in the file. -/
theorem parseConfig_validates_and_defaults (env : Env) (path : GoString) (conf : config)
    (hd : env.DecodeFile path = .ok (conf, [])) :
    ((∃ err, parseConfig env path = .returns none (some err)) ↔
      (conf.Token = lit "" ∨ conf.Zone = lit "")) ∧
    (¬ (conf.Token = lit "" ∨ conf.Zone = lit "") →
      ∃ c, parseConfig env path = .returns (some c) none) ∧
    (∀ c e, parseConfig env path = .returns (some c) e →
      e = none ∧ c.Token ≠ lit "" ∧ c.Zone ≠ lit "" ∧
      c.HTTPAddr = (if conf.HTTPAddr = lit "" then lit ":28275" else conf.HTTPAddr) ∧
      c.HTTPPath = (if conf.HTTPPath = lit "" then lit "/update" else conf.HTTPPath) ∧
      c.Token = conf.Token ∧ c.Zone = conf.Zone ∧
      c.RecordA = conf.RecordA ∧ c.RecordAAAA = conf.RecordAAAA) := by
  have hlit : lit "" = ([] : GoString) := rfl
  by_cases ht : conf.Token = []
  · have e : parseConfig env path = .returns none (some (lit "token is empty")) := by
      simp only [parseConfig, hd, hlit]
      by_cases h1 : conf.HTTPAddr = [] <;> by_cases h2 : conf.HTTPPath = [] <;> simp [h1, h2, ht]
    refine ⟨⟨fun _ => Or.inl ht, fun _ => ⟨_, e⟩⟩, fun hn => absurd (Or.inl ht) hn, ?_⟩
    intro c e2 hc
    rw [e] at hc
    cases hc
  · by_cases hz : conf.Zone = []
    · have e : parseConfig env path = .returns none (some (lit "zone is empty")) := by
        simp only [parseConfig, hd, hlit]
        by_cases h1 : conf.HTTPAddr = [] <;> by_cases h2 : conf.HTTPPath = [] <;>
          simp [h1, h2, ht, hz]
      refine ⟨⟨fun _ => Or.inr hz, fun _ => ⟨_, e⟩⟩, fun hn => absurd (Or.inr hz) hn, ?_⟩
      intro c e2 hc
      rw [e] at hc
      cases hc
    · have e : parseConfig env path = .returns (some
          { HTTPAddr := if conf.HTTPAddr = [] then lit ":28275" else conf.HTTPAddr
            HTTPPath := if conf.HTTPPath = [] then lit "/update" else conf.HTTPPath
            Token := conf.Token, Zone := conf.Zone
            RecordA := conf.RecordA, RecordAAAA := conf.RecordAAAA }) none := by
        simp only [parseConfig, hd, hlit]
        by_cases h1 : conf.HTTPAddr = [] <;> by_cases h2 : conf.HTTPPath = [] <;>
          simp [h1, h2, ht, hz]
      refine ⟨⟨?_, ?_⟩, fun _ => ⟨_, e⟩, ?_⟩
      · rintro ⟨err, he⟩
        rw [e] at he
        cases he
      · rintro (h1 | h1)
        · exact absurd h1 ht
        · exact absurd h1 hz
      · intro c e2 hc
        rw [e] at hc
        cases hc
        rw [hlit]
        exact ⟨rfl, ht, hz, rfl, rfl, rfl, rfl, rfl, rfl⟩

/-- Witness of C8: a file holding only token and zone loads with both
defaults applied. -/
theorem parseConfig_validates_and_defaults_witness :
    parseConfig exampleEnv (lit "/etc/mikrotik-cf-ddns.conf") =
      .returns (some { HTTPAddr := lit ":28275", HTTPPath := lit "/update", Token := lit "T",
                       Zone := lit "Z", RecordA := lit "", RecordAAAA := lit "" }) none ∧
    ((∃ err, parseConfig exampleEnv (lit "/etc/mikrotik-cf-ddns.conf") =
        .returns none (some err)) ↔
      (exampleFile.Token = lit "" ∨ exampleFile.Zone = lit "")) :=
  ⟨by decide,
   (parseConfig_validates_and_defaults exampleEnv (lit "/etc/mikrotik-cf-ddns.conf")
      exampleFile rfl).1⟩

/-- C9: every response that ServeHTTP produces on a writer without a
written header, on every path (405, 500, 400, 502 and the relayed upstream
response), is sent with a header map in which Server has the fixed value
`mikrotik-cf-ddns/1.0 (+https://github.com/GreenYun/mikrotik-cf-ddns)`,
and the header map still holds it when the handler returns, whatever
headers the upstream sends.  The one path on which no response is produced
is the relay of an upstream status code outside 100..999: there
`WriteHeader` panics before anything is written, and the header map holds
the Server value all the same. -/
theorem serveHTTP_server_header (env : Env) (h : updateHandler) (w : ResponseWriter)
    (r : Request) (hw : w.wroteHeader = none) :
    (ServeHTTP env h w r).w.header.values (lit "Server") =
      some [lit "mikrotik-cf-ddns/1.0 (+https://github.com/GreenYun/mikrotik-cf-ddns)"] ∧
    ((∃ code hdr, (ServeHTTP env h w r).w.wroteHeader = some (code, hdr) ∧
        hdr.values (lit "Server") =
          some [lit "mikrotik-cf-ddns/1.0 (+https://github.com/GreenYun/mikrotik-cf-ddns)"] ∧
        hdr.Get (lit "Server") =
          lit "mikrotik-cf-ddns/1.0 (+https://github.com/GreenYun/mikrotik-cf-ddns)" ∧
        (ServeHTTP env h w r).w.header.values (lit "Server") =
          some [lit "mikrotik-cf-ddns/1.0 (+https://github.com/GreenYun/mikrotik-cf-ddns)"]) ∨
      (∃ recordID value resp,
        env.Do (upstreamRequest env h h.Config.Zone recordID value) = .ok resp ∧
        (resp.StatusCode < 100 ∨ 999 < resp.StatusCode) ∧
        (ServeHTTP env h w r).w.panicked = some resp.StatusCode ∧
        (ServeHTTP env h w r).w.wroteHeader = none ∧
        (ServeHTTP env h w r).w.body = w.body)) := by
  have n1 : lit "Server" ≠ lit "Content-Length" := by decide
  have n2 : lit "Server" ≠ lit "Content-Type" := by decide
  have n3 : lit "Server" ≠ lit "X-Content-Type-Options" := by decide
  -- the writer after line 57
  obtain ⟨w1, hw1def⟩ : ∃ w1 : ResponseWriter,
      w1 = { w with header := w.header.Set (lit "Server") serverValue } := ⟨_, rfl⟩
  have hw1 : w1.wroteHeader = none := by rw [hw1def]; exact hw
  have hb1 : w1.body = w.body := by rw [hw1def]
  have hs1 : w1.header.values (lit "Server") = some [serverValue] := by
    rw [hw1def]; exact Header.values_Set_self _ _ _
  -- it is enough to find the value in the final header map, sent as it is
  suffices hfin : (ServeHTTP env h w r).w.header.values (lit "Server") = some [serverValue] ∧
      ((∃ code, (ServeHTTP env h w r).w.wroteHeader =
          some (code, (ServeHTTP env h w r).w.header)) ∨
        (∃ recordID value resp,
          env.Do (upstreamRequest env h h.Config.Zone recordID value) = .ok resp ∧
          (resp.StatusCode < 100 ∨ 999 < resp.StatusCode) ∧
          (ServeHTTP env h w r).w.panicked = some resp.StatusCode ∧
          (ServeHTTP env h w r).w.wroteHeader = none ∧
          (ServeHTTP env h w r).w.body = w.body)) by
    obtain ⟨hv, hcases⟩ := hfin
    refine ⟨hv, ?_⟩
    rcases hcases with ⟨code, hc⟩ | hp
    · refine Or.inl ⟨code, _, hc, hv, ?_, hv⟩
      simp only [serverValue] at hv
      simp [Header.Get, hv]
    · exact Or.inr hp
  have herr : ∀ (msg : GoString) (code : Int), 100 ≤ code → code ≤ 999 →
      (Error w1 msg code).header.values (lit "Server") = some [serverValue] ∧
      ((∃ c, (Error w1 msg code).wroteHeader = some (c, (Error w1 msg code).header)) ∨
        (∃ recordID value resp,
          env.Do (upstreamRequest env h h.Config.Zone recordID value) = .ok resp ∧
          (resp.StatusCode < 100 ∨ 999 < resp.StatusCode) ∧
          (Error w1 msg code).panicked = some resp.StatusCode ∧
          (Error w1 msg code).wroteHeader = none ∧
          (Error w1 msg code).body = w.body)) := by
    intro msg code hlo hhi
    exact ⟨(Error_header_values w1 msg code _ n1 n2 n3).trans hs1,
      Or.inl ⟨code, Error_wroteHeader w1 msg code hw1 hlo hhi⟩⟩
  have hupd : ∀ (rc v : GoString),
      (updateRecord env h w1 r h.Config.Zone rc v).w.header.values (lit "Server") =
        some [serverValue] ∧
      ((∃ c, (updateRecord env h w1 r h.Config.Zone rc v).w.wroteHeader =
          some (c, (updateRecord env h w1 r h.Config.Zone rc v).w.header)) ∨
        (∃ recordID value resp,
          env.Do (upstreamRequest env h h.Config.Zone recordID value) = .ok resp ∧
          (resp.StatusCode < 100 ∨ 999 < resp.StatusCode) ∧
          (updateRecord env h w1 r h.Config.Zone rc v).w.panicked = some resp.StatusCode ∧
          (updateRecord env h w1 r h.Config.Zone rc v).w.wroteHeader = none ∧
          (updateRecord env h w1 r h.Config.Zone rc v).w.body = w.body)) := by
    intro rc v
    have hk := updateRecord_keeps_header env h w1 r h.Config.Zone rc v (lit "Server") hw1 n1 n2 n3
    refine ⟨hk.1.trans hs1, ?_⟩
    rcases hk.2 with hc | ⟨resp, hd, hbad, hp, hn, hb⟩
    · exact Or.inl hc
    · exact Or.inr ⟨rc, v, resp, hd, hbad, hp, hn, hb.trans hb1⟩
  simp only [ServeHTTP, ← hw1def]
  split
  · exact herr _ _ (by norm_num) (by norm_num)
  · split
    · exact herr _ _ (by norm_num) (by norm_num)
    · split
      · split
        · exact herr _ _ (by norm_num) (by norm_num)
        · exact hupd _ _
      · split
        · exact herr _ _ (by norm_num) (by norm_num)
        · exact hupd _ _

/-- Witness of C9: the relayed reply of the examples, whose upstream sends
a Server header of its own. -/
theorem serveHTTP_server_header_witness :
    ∃ code hdr,
      (ServeHTTP exampleEnv exampleHandler ResponseWriter.fresh examplePost).w.wroteHeader =
        some (code, hdr) ∧
      hdr.values (lit "Server") =
        some [lit "mikrotik-cf-ddns/1.0 (+https://github.com/GreenYun/mikrotik-cf-ddns)"] :=
  have hr := serveHTTP_server_header exampleEnv exampleHandler ResponseWriter.fresh
    examplePost rfl
  hr.2.elim (fun hsent => hsent.elim fun code hc => hc.elim fun hdr hh => ⟨code, hdr, hh.1, hh.2.1⟩)
    (fun hpanic => hpanic.elim fun _ hp1 => hp1.elim fun _ hp2 => hp2.elim fun _ hp3 =>
      absurd hp3.2.2.2.1 (by decide))

/-- C10: for every zone and record identifier, the two path-escaped
segments that updateRecord puts into the upstream URL contain no `/`, `?`
or `#`; hence the URL is the fixed text
`https://api.cloudflare.com/client/v4/zones/`, the escaped zone,
`/dns_records/` and the escaped record, it splits at `/` into exactly the
pieces of the template with the two escaped values in their places, and it
holds no `?` and no `#`: configured values add no path segment, no query
and no fragment. -/
theorem upstreamURL_segments (zoneID recordID : GoString) :
    (∀ b ∈ PathEscape zoneID, b ≠ 0x2F ∧ b ≠ 0x3F ∧ b ≠ 0x23) ∧
    (∀ b ∈ PathEscape recordID, b ≠ 0x2F ∧ b ≠ 0x3F ∧ b ≠ 0x23) ∧
    upstreamURL zoneID recordID =
      lit "https://api.cloudflare.com/client/v4/zones/" ++ PathEscape zoneID ++
        lit "/dns_records/" ++ PathEscape recordID ∧
    (upstreamURL zoneID recordID).splitOn 0x2F =
      [lit "https:", lit "", lit "api.cloudflare.com", lit "client", lit "v4", lit "zones",
        PathEscape zoneID, lit "dns_records", PathEscape recordID] ∧
    0x3F ∉ upstreamURL zoneID recordID ∧
    0x23 ∉ upstreamURL zoneID recordID := by
  have hz := PathEscape_mem zoneID
  have hr := PathEscape_mem recordID
  have hsegs : ∀ l ∈ [lit "https:", lit "", lit "api.cloudflare.com", lit "client", lit "v4",
      lit "zones", PathEscape zoneID, lit "dns_records", PathEscape recordID],
      (0x2F : Nat) ∉ l ∧ (0x3F : Nat) ∉ l ∧ (0x23 : Nat) ∉ l := by
    intro l hl
    simp only [List.mem_cons, List.mem_singleton, List.not_mem_nil, or_false] at hl
    rcases hl with rfl | rfl | rfl | rfl | rfl | rfl | rfl | rfl | rfl
    · decide
    · decide
    · decide
    · decide
    · decide
    · decide
    · exact ⟨fun hm => (hz _ hm).1 rfl, fun hm => (hz _ hm).2.1 rfl, fun hm => (hz _ hm).2.2 rfl⟩
    · decide
    · exact ⟨fun hm => (hr _ hm).1 rfl, fun hm => (hr _ hm).2.1 rfl, fun hm => (hr _ hm).2.2 rfl⟩
  have hjoin : upstreamURL zoneID recordID =
      [0x2F].intercalate [lit "https:", lit "", lit "api.cloudflare.com", lit "client", lit "v4",
        lit "zones", PathEscape zoneID, lit "dns_records", PathEscape recordID] := by
    have e1 : lit "https://api.cloudflare.com/client/v4/zones/" =
        lit "https:" ++ [0x2F] ++ lit "" ++ [0x2F] ++ lit "api.cloudflare.com" ++ [0x2F] ++
          lit "client" ++ [0x2F] ++ lit "v4" ++ [0x2F] ++ lit "zones" ++ [0x2F] := by decide
    have e2 : lit "/dns_records/" = [0x2F] ++ lit "dns_records" ++ [0x2F] := by decide
    simp only [upstreamURL, e1, e2, List.intercalate, List.intersperse, List.flatten,
      List.append_assoc, List.append_nil]
  refine ⟨hz, hr, rfl, ?_, ?_, ?_⟩
  · rw [hjoin]
    exact List.splitOn_intercalate _ 0x2F (fun l hl => (hsegs l hl).1) (by simp)
  · intro hm
    simp only [upstreamURL, List.mem_append] at hm
    rcases hm with ((hm | hm) | hm) | hm
    · revert hm; decide
    · exact (hz _ hm).2.1 rfl
    · revert hm; decide
    · exact (hr _ hm).2.1 rfl
  · intro hm
    simp only [upstreamURL, List.mem_append] at hm
    rcases hm with ((hm | hm) | hm) | hm
    · revert hm; decide
    · exact (hz _ hm).2.2 rfl
    · revert hm; decide
    · exact (hr _ hm).2.2 rfl

end MikrotikCfDdns
